import Mathlib

set_option maxRecDepth 8000

/-!
Verification of the GlueX `DSourceComboer` combo-construction engine
(`src/libraries/ANALYSIS/DSourceComboer.cc`) against its natural-language
specification, via a shallow embedding in Lean.

Conventions of the embedding:
* Detected particles and showers (`JObject*` identities) are `Nat`.
* `Particle_t` PIDs are `Nat` (`Unknown = 0`, `Gamma = 1`, as in the enum).
* RF beam bunches are `Int`.
* `std::map` / sorted-`vector` containers are association lists; `emplace`
  inserts only when the key is absent, mirroring the C++ semantics.
* Fallible C++ operations (iterator arithmetic on possibly-empty vectors)
  return `Option`.
-/

/-- `Particle_t::Unknown` (enum value 0). -/
def Unknown : Nat := 0

/-- `Particle_t::Gamma` (enum value 1). -/
def Gamma : Nat := 1

/-- `DSourceComboer::ComboingStage_t`: `d_ChargedStage`,
`d_MixedStage_ZIndependent` (FCAL-only) and `d_MixedStage` (all showers). -/
inductive ComboingStage where
  | charged
  | mixedZIndependent
  | mixed
deriving DecidableEq

/-- `DAnalysis::Charge_t` charge-content classification of a combo info:
`d_Charged`, `d_Neutral`, `d_AllCharges`. -/
inductive ChargeContent where
  | charged
  | neutral
  | allCharges
deriving DecidableEq

/-- The value content of a `DSourceComboInfo`: the `(PID, count)` pairs of
directly detected particles (`dNumParticles`) and the `(use, count)` pairs of
further decays (`dFurtherDecays`, uses abstracted to ids).  Two infos with
equal content compare equal. -/
structure SourceComboInfoData where
  numParticles : List (Nat × Nat)
  furtherDecays : List (Nat × Nat)
deriving DecidableEq

/-- The combo-info interning registry: the registered infos with their
identities (pointers abstracted to allocation numbers), plus the next fresh
identity.  In the source this is `dSourceComboInfoSet` (a `set` used during
reaction analysis) respectively `dSourceComboInfos` (a sorted `vector` used
during combo building); both are keyed by the info's value content. -/
structure InfoRegistry where
  infoEntries : List (SourceComboInfoData × Nat)
  nextId : Nat
deriving DecidableEq

/-- Value-equality lookup in the registry.  The source performs it with
`set::find` (`MakeOrGet_SourceComboInfo`) or `std::equal_range` over the
sorted vector (`GetOrMake_SourceComboInfo`); both return the entry whose
content equals the probe, if one exists. -/
def registryFind (st : InfoRegistry) (c : SourceComboInfoData) :
    Option (SourceComboInfoData × Nat) :=
  st.infoEntries.find? (fun e => decide (e.1 = c))

/-- `DSourceComboer::MakeOrGet_SourceComboInfo` (DSourceComboer.cc:498-520):
build the content, search the set by value equality; if found return the
existing info, else allocate a new one and insert it. -/
def makeOrGet_SourceComboInfo (st : InfoRegistry) (c : SourceComboInfoData) :
    Nat × InfoRegistry :=
  match registryFind st c with
  | some e => (e.2, st)
  | none => (st.nextId, ⟨st.infoEntries ++ [(c, st.nextId)], st.nextId + 1⟩)

/-- `DSourceComboer::GetOrMake_SourceComboInfo` (DSourceComboer.cc:522-544):
the hot-path variant over the sorted vector, using `std::equal_range`; if
the range is non-empty return the existing info, else create it and insert
at the insertion point.  Value-lookup semantics are identical to
`makeOrGet_SourceComboInfo`; only the container (sorted vector vs. tree set)
differs, which the association-list model abstracts. -/
def getOrMake_SourceComboInfo (st : InfoRegistry) (c : SourceComboInfoData) :
    Nat × InfoRegistry :=
  match registryFind st c with
  | some e => (e.2, st)
  | none => (st.nextId, ⟨st.infoEntries ++ [(c, st.nextId)], st.nextId + 1⟩)

/-! ### Photon vertex-z binning (constructor, DSourceComboer.cc:118-141) -/

/-- `dPhotonVertexZBinWidth` is fixed to `10.0` in the constructor. -/
def photonVertexZBinWidth : ℚ := 10

/-- The constructor's do-while loop (DSourceComboer.cc:129-137):
starting from `locN = 0`, repeatedly increment `locN` and set
`dPhotonVertexZRangeLow = dTargetCenter.Z() - locN * dPhotonVertexZBinWidth`
while `dPhotonVertexZRangeLow + dPhotonVertexZBinWidth > locTargetUpstreamZ`.
Returns the final `locN`; fuel-bounded to stay total. -/
def binLoopN (center upstream width : ℚ) : Nat → Nat → Nat
  | 0, n => n + 1
  | fuel + 1, n =>
    let nNext := n + 1
    let low := center - (nNext : ℚ) * width
    if low + width > upstream then binLoopN center upstream width fuel nNext
    else nNext

/-- The `locN` selected by the constructor's do-while loop for a target of
the given center and length (`locTargetUpstreamZ = center - length/2`). -/
def binLoopResultN (center len : ℚ) : Nat :=
  binLoopN center (center - len / 2) photonVertexZBinWidth 20 0

/-- `dPhotonVertexZRangeLow` as computed by the constructor:
`dTargetCenter.Z() - locN * dPhotonVertexZBinWidth` for the final `locN`. -/
def photonVertexZRangeLow (center len : ℚ) : ℚ :=
  center - (binLoopResultN center len : ℚ) * photonVertexZBinWidth

/-! ### The memo-table guards of the vertical comboing entry points -/

/-- The decision of `DSourceComboer::Combo_Vertically_AllDecays` on whether
to invoke `Create_SourceCombos` for a single needed decay
(`locNumDecaysNeeded == 1` branch, DSourceComboer.cc:1110-1129):
skip neutral decays on the charged stage (line 1110), skip fully-charged
decays on mixed stages (line 1116), and otherwise invoke the build exactly
when `locSourceCombosByUseSoFar.find(locSourceComboDecayUse) !=
locSourceCombosByUseSoFar.end()` (line 1120), i.e. when the use is PRESENT
among the memo-table keys. -/
def combo_Vertically_AllDecays_InvokesBuild (stage : ComboingStage)
    (decayChargeContent : ChargeContent) (memoKeys : List Nat)
    (decayUse : Nat) : Bool :=
  if stage = .charged ∧ decayChargeContent = .neutral then false
  else if stage ≠ .charged ∧ decayChargeContent = .charged then false
  else memoKeys.contains decayUse

/-- The decision of `DSourceComboer::Combo_Vertically_AllParticles` on
whether to recursively build the direct `N - 1` grouping
(DSourceComboer.cc:1326-1328): the recursion is invoked exactly when
`locSourceCombosByUseSoFar.find(locNMinus1ComboUse) !=
locSourceCombosByUseSoFar.end()`, i.e. when the `N - 1` use is PRESENT
among the memo-table keys. -/
def combo_Vertically_AllParticles_InvokesBuildNMinus1 (memoKeys : List Nat)
    (nMinus1Use : Nat) : Bool :=
  memoKeys.contains nMinus1Use

/-- The guard of `DSourceComboer::Combo_Vertically_AllDecays` for an `N > 1`
grouping (DSourceComboer.cc:1143-1144): skip (`continue`) exactly when the
needed grouping use is already present in the memo table. -/
def combo_Vertically_AllDecays_SkipsGrouping (memoKeys : List Nat)
    (groupingUse : Nat) : Bool :=
  memoKeys.contains groupingUse

/-! ### Claim theorems: C7, C9, C1 -/

/-- The registered info contents of a registry state. -/
def registryContents (st : InfoRegistry) : List SourceComboInfoData :=
  st.infoEntries.map (fun e => e.1)

theorem registryFind_after_insert (st : InfoRegistry) (c : SourceComboInfoData)
    (hfind : registryFind st c = none) :
    registryFind ⟨st.infoEntries ++ [(c, st.nextId)], st.nextId + 1⟩ c
      = some (c, st.nextId) := by
  unfold registryFind at hfind ⊢
  rw [List.find?_append, hfind]
  simp

theorem notMem_contents_of_find_none (st : InfoRegistry)
    (c : SourceComboInfoData) (hfind : registryFind st c = none) :
    c ∉ registryContents st := by
  intro hmem
  obtain ⟨e, he, hec⟩ := List.mem_map.1 hmem
  have := List.find?_eq_none.1 hfind e he
  simp [hec] at this

/-- Claim C7: calling the combo-info canonicalization twice with value-equal
content returns the same info identity both times, without modifying the
registry on the second call, and registration keeps contents duplicate-free
(no two registered infos share identical content); this holds for both the
reaction-analysis variant (`MakeOrGet_SourceComboInfo`) and the
combo-building variant (`GetOrMake_SourceComboInfo`). -/
theorem sourceComboInfo_interning_idempotent (st : InfoRegistry)
    (c c' : SourceComboInfoData) (hcc : c = c')
    (hnd : (registryContents st).Nodup) :
    (makeOrGet_SourceComboInfo (makeOrGet_SourceComboInfo st c).2 c').1
        = (makeOrGet_SourceComboInfo st c).1
    ∧ (makeOrGet_SourceComboInfo (makeOrGet_SourceComboInfo st c).2 c').2
        = (makeOrGet_SourceComboInfo st c).2
    ∧ (registryContents (makeOrGet_SourceComboInfo st c).2).Nodup
    ∧ (getOrMake_SourceComboInfo (getOrMake_SourceComboInfo st c).2 c').1
        = (getOrMake_SourceComboInfo st c).1
    ∧ (getOrMake_SourceComboInfo (getOrMake_SourceComboInfo st c).2 c').2
        = (getOrMake_SourceComboInfo st c).2
    ∧ (registryContents (getOrMake_SourceComboInfo st c).2).Nodup := by
  subst hcc
  have heq : getOrMake_SourceComboInfo = makeOrGet_SourceComboInfo := rfl
  rw [heq]
  unfold makeOrGet_SourceComboInfo
  cases hfind : registryFind st c with
  | some e => simp [hfind, hnd]
  | none =>
    have h2 := registryFind_after_insert st c hfind
    have hnm := notMem_contents_of_find_none st c hfind
    simp only [hfind, h2]
    have hnodup : (registryContents
        (⟨st.infoEntries ++ [(c, st.nextId)], st.nextId + 1⟩ : InfoRegistry)).Nodup := by
      unfold registryContents at hnm ⊢
      simp only [List.map_append, List.map_cons, List.map_nil]
      rw [List.nodup_append]
      exact ⟨hnd, by simp, List.disjoint_singleton.2 hnm⟩
    simp [hnodup]

/-- Witness for `sourceComboInfo_interning_idempotent` at a concrete registry
holding one info, requesting a second, distinct content twice. -/
theorem sourceComboInfo_interning_idempotent_witness :
    ((⟨[(⟨[(1, 2)], []⟩, 0)], 1⟩ : InfoRegistry) = ⟨[(⟨[(1, 2)], []⟩, 0)], 1⟩)
    ∧ (makeOrGet_SourceComboInfo
        (makeOrGet_SourceComboInfo ⟨[(⟨[(1, 2)], []⟩, 0)], 1⟩ ⟨[], [(5, 2)]⟩).2
        ⟨[], [(5, 2)]⟩).1
      = (makeOrGet_SourceComboInfo ⟨[(⟨[(1, 2)], []⟩, 0)], 1⟩ ⟨[], [(5, 2)]⟩).1 :=
  ⟨rfl, (sourceComboInfo_interning_idempotent ⟨[(⟨[(1, 2)], []⟩, 0)], 1⟩
    ⟨[], [(5, 2)]⟩ ⟨[], [(5, 2)]⟩ rfl (by decide)).1⟩

/-- Claim C9 (refuting): the constructor sets `dPhotonVertexZRangeLow` to
`targetCenter - locN * dPhotonVertexZBinWidth` for a whole number `locN`, so
the target center z falls on a bin EDGE, never on a bin center: for no
integer `k` does `dPhotonVertexZRangeLow + (k + 1/2) * dPhotonVertexZBinWidth`
equal the target center.  In particular for target center 65, length 30
(`GetTargetZ`'s nominal default), the loop yields `locN = 3`,
`dPhotonVertexZRangeLow = 35`, and the bin centers `40 + 10k` never hit 65.
This contradicts the constructor's own comment "MAKE SURE THAT THE CENTER OF
THE TARGET IS THE CENTER OF A BIN" (DSourceComboer.cc:126). -/
theorem photonVertexZBinning_targetCenter_never_binCenter :
    binLoopResultN 65 30 = 3
    ∧ photonVertexZRangeLow 65 30 = 35
    ∧ ∀ (center len : ℚ) (k : ℕ),
        photonVertexZRangeLow center len
          + ((k : ℚ) + 1 / 2) * photonVertexZBinWidth ≠ center := by
  refine ⟨?_, ?_, ?_⟩
  · norm_num [binLoopResultN, binLoopN, photonVertexZBinWidth]
  · have h : binLoopResultN 65 30 = 3 := by
      norm_num [binLoopResultN, binLoopN, photonVertexZBinWidth]
    rw [photonVertexZRangeLow, h]
    norm_num [photonVertexZBinWidth]
  · intro center len k h
    rw [photonVertexZRangeLow, photonVertexZBinWidth] at h
    set N := binLoopResultN center len with hN
    have h3 : (2 * (k : ℚ) + 1) = 2 * (N : ℚ) := by linarith
    have h4 : ((2 * k + 1 : ℕ) : ℚ) = ((2 * N : ℕ) : ℚ) := by push_cast; linarith
    have h5 : 2 * k + 1 = 2 * N := Nat.cast_injective h4
    omega

/-- Claim C1 (refuting): the memo-table guards of the vertical-comboing entry
points are inverted.  `Combo_Vertically_AllDecays` invokes
`Create_SourceCombos` for a single needed decay exactly when the use IS
present among the memo keys (`find != end`, DSourceComboer.cc:1120, despite
the adjacent comment "if not done already!"), and skips the build when the
use is absent; `Combo_Vertically_AllParticles` likewise recurses into the
`N-1` grouping exactly when that use is already present
(DSourceComboer.cc:1327, despite the comment "If not, create them").  Only
the `N > 1` grouping guard (line 1143) skips on presence as specified. -/
theorem comboVertically_memoGuards_inverted :
    combo_Vertically_AllDecays_InvokesBuild .charged .charged [7] 7 = true
    ∧ combo_Vertically_AllDecays_InvokesBuild .charged .charged [] 7 = false
    ∧ combo_Vertically_AllParticles_InvokesBuildNMinus1 [9] 9 = true
    ∧ combo_Vertically_AllParticles_InvokesBuildNMinus1 [] 9 = false
    ∧ combo_Vertically_AllDecays_SkipsGrouping [4] 4 = true
    ∧ combo_Vertically_AllDecays_SkipsGrouping [] 4 = false := by
  decide

/-! ### Photon indexing by beam-bunch set
(`Get_ParticlesForComboing` / `Get_ShowersByBeamBunch`,
DSourceComboer.cc:1923-1979) -/

/-- A `DPhotonShowersByBeamBunch`: `map<vector<int>, vector<const JObject*>>`
from a beam-bunch set to the showers valid for (at least one of) those
bunches, as an association list. -/
abbrev ShowerBunchMap : Type := List (List Int × List Nat)

/-- `std::map::operator[]` as used for reading: returns the mapped vector, or
a default-constructed (empty) one if the key is absent, also inserting the
default entry in that case. -/
def bunchMapIndex (m : ShowerBunchMap) (k : List Int) :
    List Nat × ShowerBunchMap :=
  match m.find? (fun e => decide (e.1 = k)) with
  | some e => (e.2, m)
  | none => ([], m ++ [(k, [])])

/-- `std::map::emplace`: inserts only when the key is absent. -/
def bunchMapEmplace (m : ShowerBunchMap) (k : List Int) (v : List Nat) :
    ShowerBunchMap :=
  match m.find? (fun e => decide (e.1 = k)) with
  | some _ => m
  | none => m ++ [(k, v)]

/-- The C++ expression `vector<int>(*locBunchIterator)`
(DSourceComboer.cc:1963): the sized-vector constructor, i.e. a vector of
`*locBunchIterator` zero-initialized ints -- NOT the single-element list
`{*locBunchIterator}`. -/
def vectorIntSized (b : Int) : List Int :=
  List.replicate b.toNat 0

/-- `std::set_union` over two sorted shower vectors: the sorted
duplicate-free union (elements of the first, plus the second's elements not
in the first, re-sorted). -/
def showerSetUnion (a b : List Nat) : List Nat :=
  (a ++ b.filter (fun x => decide (x ∉ a))).insertionSort (· ≤ ·)

/-- The incremental-union loop of `DSourceComboer::Get_ShowersByBeamBunch`
(DSourceComboer.cc:1959-1977): iterate over the remaining bunches; read the
showers cached for the bunches-so-far key and for the key
`vector<int>(*locBunchIterator)` (the sized-vector constructor, see
`vectorIntSized`); extend the bunches-so-far key; if the second read was
empty, store the carried list unchanged for the extended key, else store the
sorted union. -/
def get_ShowersByBeamBunch_Loop (rest : List Int) (bunchesSoFar : List Int)
    (m : ShowerBunchMap) : ShowerBunchMap :=
  match rest with
  | [] => m
  | b :: rest =>
    let comboRead := bunchMapIndex m bunchesSoFar
    let bunchRead := bunchMapIndex comboRead.2 (vectorIntSized b)
    let soFar := bunchesSoFar ++ [b]
    if bunchRead.1 = [] then
      get_ShowersByBeamBunch_Loop rest soFar
        (bunchMapEmplace bunchRead.2 soFar comboRead.1)
    else
      get_ShowersByBeamBunch_Loop rest soFar
        (bunchMapEmplace bunchRead.2 soFar (showerSetUnion comboRead.1 bunchRead.1))

/-- `DSourceComboer::Get_ShowersByBeamBunch` (DSourceComboer.cc:1955-1979):
run the incremental loop starting from the first requested bunch, then
return the entry now cached for the full requested bunch-set key.
`*locBeamBunches.begin()` on an empty request would be undefined, hence the
`Option`. -/
def get_ShowersByBeamBunch (beamBunches : List Int) (m : ShowerBunchMap) :
    Option (List Nat) :=
  match beamBunches with
  | [] => none
  | b0 :: rest =>
    some (bunchMapIndex
      (get_ShowersByBeamBunch_Loop rest [b0] m) beamBunches).1

/-- The per-bunch union the specification describes: the sorted
duplicate-free union, over the bunches in the constraint, of the cached
per-single-bunch shower lists.  (Stated from the spec, for comparison with
`get_ShowersByBeamBunch`.) -/
def specShowersUnion (beamBunches : List Int) (m : ShowerBunchMap) :
    List Nat :=
  (beamBunches.flatMap (fun b =>
      ((m.find? (fun e => decide (e.1 = [b]))).map (fun e => e.2)).getD []))
    |>.dedup.insertionSort (· ≤ ·)

/-- Claim C5 (refuting): the incremental fallback `Get_ShowersByBeamBunch`
does not return the union of the cached per-single-bunch shower lists.  At
DSourceComboer.cc:1963 it reads `locShowersByBunch[vector<int>(*locBunchIterator)]`:
the sized-vector constructor makes that key a vector of `*locBunchIterator`
zeros, not the single-bunch key `{*locBunchIterator}`; the lookup therefore
default-constructs an empty entry, every subsequent bunch's shower list is
taken to be empty, and the first bunch's list is carried through unchanged.
Concretely, with bunch 1 mapped to shower {10} and bunch 2 mapped to shower
{20}, requesting {1,2} returns [10] while the claim (and the function's own
comment "find all particles that have an overlapping beam bunch with the
input") requires the union [10, 20]. -/
theorem get_ShowersByBeamBunch_not_union :
    vectorIntSized 2 = [0, 0]
    ∧ get_ShowersByBeamBunch [1, 2] [([1], [10]), ([2], [20])] = some [10]
    ∧ specShowersUnion [1, 2] [([1], [10]), ([2], [20])] = [10, 20]
    ∧ some (specShowersUnion [1, 2] [([1], [10]), ([2], [20])])
        ≠ get_ShowersByBeamBunch [1, 2] [([1], [10]), ([2], [20])] := by
  refine ⟨by decide, by decide, by decide, by decide⟩

/-- `DSourceComboInfo::Get_VertexZIndex_Unknown()`: the sentinel vertex-z
index for "unknown" (value from DSourceComboInfo.h, not under src/; only its
distinctness from the others matters here). -/
def vertexZIndex_Unknown : Int := -2

/-- `DSourceComboInfo::Get_VertexZIndex_ZIndependent()`: the sentinel
vertex-z index for z-independent (FCAL) showers. -/
def vertexZIndex_ZIndependent : Int := -1

/-- Read access to a `ShowerBunchMap` without insertion (for stating
results). -/
def bunchMapGet (m : ShowerBunchMap) (k : List Int) : List Nat :=
  ((m.find? (fun e => decide (e.1 = k))).map (fun e => e.2)).getD []

/-- The per-event particle indexes of the comboer: `dTracksByPID` and
`dShowersByBeamBunchByZBin` (both association lists here). -/
structure ComboerParticleState where
  tracksByPID : List (Nat × List Nat)
  showersByBeamBunchByZBin : List (Int × ShowerBunchMap)

/-- The shower-bunch map cached for one vertex-z bin. -/
def showersForZBin (st : ComboerParticleState) (z : Int) : ShowerBunchMap :=
  ((st.showersByBeamBunchByZBin.find? (fun e => decide (e.1 = z))).map
    (fun e => e.2)).getD []

/-- `DSourceComboer::Get_ParticlesForComboing` (DSourceComboer.cc:1923-1953):
charged PIDs ignore stage/bunches/z-bin and return `dTracksByPID[pid]`;
massive neutrals return all showers (unknown-z bin, no-constraint key);
photons on the FCAL-only stage use the z-independent bin; otherwise an empty
bunch constraint returns all showers, and a non-empty constraint returns the
exact cached entry for that bunch-set key, falling back to
`Get_ShowersByBeamBunch` when the key has not been indexed yet.
`pidCharge` stands for `ParticleCharge(locPID)`. -/
def get_ParticlesForComboing (st : ComboerParticleState) (pid : Nat)
    (pidCharge : Int) (stage : ComboingStage) (beamBunches : List Int)
    (vertexZBin : Int) : Option (List Nat) :=
  if pidCharge ≠ 0 then
    some (((st.tracksByPID.find? (fun e => decide (e.1 = pid))).map
      (fun e => e.2)).getD [])
  else if pid ≠ Gamma then
    some (bunchMapGet (showersForZBin st vertexZIndex_Unknown) [])
  else if stage = .mixedZIndependent then
    let m := showersForZBin st vertexZIndex_ZIndependent
    match m.find? (fun e => decide (e.1 = beamBunches)) with
    | some e => some e.2
    | none => get_ShowersByBeamBunch beamBunches m
  else if beamBunches = [] then
    some (bunchMapGet (showersForZBin st vertexZIndex_Unknown) [])
  else
    let m := showersForZBin st vertexZBin
    match m.find? (fun e => decide (e.1 = beamBunches)) with
    | some e => some e.2
    | none => get_ShowersByBeamBunch beamBunches m

/-! ### Vertical comboing of N same-PID particles
(`Combo_Vertically_NParticles`, DSourceComboer.cc:1335-1428) -/

/-- Modelled from the spec:
`DSourceComboTimeHandler::Get_CommonRFBunches` (the timing collaborator, not
under src/) returns the set of RF bunches common to both inputs, where the
empty set is the "no constraint" sentinel: if either input is empty the
other is returned, else the intersection. -/
def get_CommonRFBunches (a b : List Int) : List Int :=
  if a = [] then b
  else if b = [] then a
  else a.filter (fun x => decide (x ∈ b))

/-- The iteration space of the N = 2 double loop
(DSourceComboer.cc:1361-1365): the outer iterator runs from `begin()` up to
(excluding) `prev(end())`, the inner from `next(first)` to `end()`; i.e.
all ordered index pairs `(i, j)` with `i < j`, grouped by `i` ascending. -/
def pairsFrom : List Nat → List (Nat × Nat)
  | [] => []
  | a :: rest => (rest.map (fun b => (a, b))) ++ pairsFrom rest

/-- The body of the N = 2 pair loop (DSourceComboer.cc:1362-1385) for one
pair: compute the z-independence flag; on the all-showers stage skip
FCAL-only pairs (already built); for photons compute the common RF bunches
of the two showers and reject the pair if the intersection is empty (for
any other PID the stored bunch set is the empty "no constraint" sentinel);
otherwise emit the two-particle combo with its bunch set. -/
def pairLoopBody (stage : ComboingStage) (isGamma : Bool)
    (validRF : Nat → List Int) (isZInd : Nat → Bool) (pr : Nat × Nat) :
    Option (List Nat × List Int) :=
  if stage = ComboingStage.mixed
      ∧ (decide (stage = ComboingStage.mixedZIndependent)
          || (isZInd pr.1 && isZInd pr.2)) = true then none
  else if isGamma
      ∧ (if isGamma then get_CommonRFBunches (validRF pr.1) (validRF pr.2)
         else []) = [] then none
  else some ([pr.1, pr.2],
    if isGamma then get_CommonRFBunches (validRF pr.1) (validRF pr.2) else [])

/-- The N = 2 branch of `DSourceComboer::Combo_Vertically_NParticles`
(DSourceComboer.cc:1356-1388).  The loop bound is
`std::prev(locParticles.end())`, computed before any emptiness check: on an
empty particle vector this iterator arithmetic is undefined behaviour, hence
`none`.  `isGamma` stands for `locPID == Gamma`; `validRF` for
`dSourceComboTimeHandler->Get_ValidRFBunches(particle, zbin)`; `isZInd` for
`Get_IsComboingZIndependent(particle, pid)`. -/
def combo_Vertically_NParticles_Pairs (stage : ComboingStage) (isGamma : Bool)
    (validRF : Nat → List Int) (isZInd : Nat → Bool)
    (particles : List Nat) : Option (List (List Nat × List Int)) :=
  match particles with
  | [] => none
  | _ :: _ =>
    some ((pairsFrom particles).filterMap
      (pairLoopBody stage isGamma validRF isZInd))

/-- `Get_ResumeAtIterator_Particles`: the saved resume-after marker of a
combo is the last particle appended to it
(`dResumeSearchAfterMap_Particles[locCombo] = *locSecondIterator`, lines
1384/1425); the search for the next particle starts one position after that
marker in the particle list. -/
def resumeSearchAfter (particles : List Nat) : Option Nat → List Nat
  | none => particles
  | some x => (particles.dropWhile (fun y => decide (y ≠ x))).drop 1

/-- The N > 2 branch of `DSourceComboer::Combo_Vertically_NParticles`
(DSourceComboer.cc:1390-1427): extend each previously created combo of
`N - 1` same-PID particles by every particle strictly after its resume-after
marker; no RF-emptiness rejection occurs here (the candidate list was
pre-selected by bunch).  This models the case of a constant candidate pool
across combos (charged PIDs, or an empty bunch constraint), which is the
situation of the no-cuts claim. -/
def combo_Vertically_NParticles_Extend (stage : ComboingStage)
    (isGamma : Bool) (validRF : Nat → List Int) (isZInd : Nat → Bool)
    (particles : List Nat) (combosNMinus1 : List (List Nat × List Int)) :
    List (List Nat × List Int) :=
  combosNMinus1.flatMap (fun c =>
    (resumeSearchAfter particles c.1.getLast?).filterMap (fun p =>
      if stage = ComboingStage.mixed
          ∧ (decide (stage = ComboingStage.mixedZIndependent)
              || (c.1.all isZInd && isZInd p)) = true then none
      else some (c.1 ++ [p],
        if isGamma then get_CommonRFBunches c.2 (validRF p) else [])))

/-- The vertical chain of `Combo_Vertically_AllParticles` for one PID
needing `N ≥ 2` identical particles, WITH THE `N - 1` GUARD AS ITS COMMENT
PRESCRIBES: "see whether the combos for the direct N - 1 grouping have
already been done.  If not, create them" (DSourceComboer.cc:1326).  An
`N = 2` request is built directly by the pair loop (lines 1316-1320); an
`N > 2` request builds the `N - 1` grouping first and extends it (lines
1322-1331).  The SHIPPED guard at line 1327 is inverted (`find != end`,
see the memo-guard analysis) and never builds the `N - 1` grouping on a
fresh memo; that shipped behaviour is modelled separately by
`combo_Vertically_AllParticles_FreshMemoChain`.  `N < 2` vertical requests
never occur (`locNumPIDNeeded == 1` is combined horizontally instead),
hence `none`. -/
def combo_Vertically_NParticles_IntendedChain (stage : ComboingStage)
    (isGamma : Bool) (validRF : Nat → List Int) (isZInd : Nat → Bool)
    (particles : List Nat) : Nat → Option (List (List Nat × List Int))
  | 0 => none
  | 1 => none
  | 2 => combo_Vertically_NParticles_Pairs stage isGamma validRF isZInd particles
  | n + 3 =>
    (combo_Vertically_NParticles_IntendedChain stage isGamma validRF isZInd
      particles (n + 2)).map
      (combo_Vertically_NParticles_Extend stage isGamma validRF isZInd particles)

/-- The vertical chain of `Combo_Vertically_AllParticles` AS SHIPPED, run
against a fresh per-event memo table (no grouping use built yet, the state
at the first request of an event).  `N = 2` is built directly by the pair
loop (DSourceComboer.cc:1316-1320).  For `N > 2` the guard at line 1327
reads `find(locNMinus1ComboUse) != end()`: with the `N - 1` use absent the
recursive build is skipped, and `Combo_Vertically_NParticles` then
dereferences the default-constructed (null) memo entry for the `N - 1` use
at line 1391 -- undefined behaviour, modelled as `none`. -/
def combo_Vertically_AllParticles_FreshMemoChain (stage : ComboingStage)
    (isGamma : Bool) (validRF : Nat → List Int) (isZInd : Nat → Bool)
    (particles : List Nat) : Nat → Option (List (List Nat × List Int))
  | 0 => none
  | 1 => none
  | 2 => combo_Vertically_NParticles_Pairs stage isGamma validRF isZInd particles
  | _ + 3 => none

/-- The member lists produced by the intended-guard vertical chain with no
cuts applying (a non-photon PID: no RF voting, no z-dependence skips). -/
def vertNoCutsCombos (pool : List Nat) (n : Nat) : Option (List (List Nat)) :=
  (combo_Vertically_NParticles_IntendedChain ComboingStage.charged false
    (fun _ => []) (fun _ => false) pool n).map (fun l => l.map (fun c => c.1))

/-- Claim C10: the N = 2 pair loop computes `std::prev` of the candidate
list's end iterator before any emptiness check, so it is well-defined only
under the unstated precondition that `Get_ParticlesForComboing` returned a
non-empty list (the model yields `none`, marking undefined behaviour, exactly
on the empty list); and an empty candidate list is producible -- e.g. a
photon request whose cached shower list for the requested vertex-z bin and
bunch constraint is empty. -/
theorem pairLoop_requires_nonempty_particles :
    (∀ stage isGamma validRF isZInd,
      combo_Vertically_NParticles_Pairs stage isGamma validRF isZInd [] = none)
    ∧ get_ParticlesForComboing ⟨[], [(3, [([5], [])])]⟩ Gamma 0
        ComboingStage.mixed [5] 3 = some []
    ∧ (∀ stage isGamma validRF isZInd (pool : List Nat), pool ≠ [] →
        ∃ l, combo_Vertically_NParticles_Pairs stage isGamma validRF isZInd
          pool = some l) := by
  refine ⟨fun _ _ _ _ => rfl, by decide, ?_⟩
  intro stage isGamma validRF isZInd pool hpool
  match pool with
  | [] => exact absurd rfl hpool
  | a :: rest =>
    exact ⟨_, rfl⟩

/-- Witness for `pairLoop_requires_nonempty_particles`: the pair loop is
defined on the concrete non-empty pool `[0]`. -/
theorem pairLoop_requires_nonempty_particles_witness :
    (([0] : List Nat) ≠ []) ∧ ∃ l,
      combo_Vertically_NParticles_Pairs ComboingStage.charged false
        (fun _ => []) (fun _ => false) [0] = some l :=
  ⟨by decide, pairLoop_requires_nonempty_particles.2.2 ComboingStage.charged
    false (fun _ => []) (fun _ => false) [0] (by decide)⟩

/-! ### The combo entity (`DSourceCombo`) and transitive leaf collection -/

/-- `DSourceCombo`: the direct `(PID, particle)` leaf members
(`dSourceParticles`), the map from sub-use to the concrete sub-combos
satisfying it (`dFurtherDecayCombos`, uses abstracted to ids), and the
z-independence flag. -/
inductive SourceCombo where
  | mk (sourceParticles : List (Nat × Nat))
       (furtherDecayCombos : List (Nat × List SourceCombo))
       (isZIndependent : Bool)

/-- `DSourceCombo::Get_SourceParticles(false)`: the direct leaf members. -/
def SourceCombo.directParticles : SourceCombo → List (Nat × Nat)
  | .mk ps _ _ => ps

/-- `DSourceCombo::Get_FurtherDecayCombos()`. -/
def SourceCombo.furtherDecays : SourceCombo → List (Nat × List SourceCombo)
  | .mk _ ds _ => ds

/-- `DSourceCombo::Get_IsComboingZIndependent()`. -/
def SourceCombo.zIndependent : SourceCombo → Bool
  | .mk _ _ z => z

mutual

/-- `DSourceCombo::Get_SourceParticles(true)`: the `(PID, particle)` pairs of
the entire chain -- the direct members plus, recursively, those of every
sub-combo of every further-decay entry. -/
def SourceCombo.chainParticles : SourceCombo → List (Nat × Nat)
  | .mk ps ds _ => ps ++ chainParticlesOfEntries ds

/-- Chain particles contributed by a further-decay entry list. -/
def chainParticlesOfEntries : List (Nat × List SourceCombo) → List (Nat × Nat)
  | [] => []
  | e :: rest => chainParticlesOfList e.2 ++ chainParticlesOfEntries rest

/-- Chain particles contributed by a sub-combo list. -/
def chainParticlesOfList : List SourceCombo → List (Nat × Nat)
  | [] => []
  | c :: rest => SourceCombo.chainParticles c ++ chainParticlesOfList rest

end

/-- `DAnalysis::Get_SourceParticles(pairs)` (free function, declared outside
src/): extracts the underlying detected-object identities from the
`(PID, particle)` pairs. -/
def sourceObjects (pairs : List (Nat × Nat)) : List Nat :=
  pairs.map (fun pr => pr.2)

/-- The transitive detected-object identities of a combo: the objects of its
entire particle chain. -/
def SourceCombo.chainObjects (c : SourceCombo) : List Nat :=
  sourceObjects c.chainParticles

theorem chainParticlesOfList_eq_flatMap (l : List SourceCombo) :
    chainParticlesOfList l = l.flatMap SourceCombo.chainParticles := by
  induction l with
  | nil => rfl
  | cons c rest ih => rw [chainParticlesOfList, ih, List.flatMap_cons]

theorem chainParticlesOfEntries_eq_flatMap (l : List (Nat × List SourceCombo)) :
    chainParticlesOfEntries l
      = l.flatMap (fun e => e.2.flatMap SourceCombo.chainParticles) := by
  induction l with
  | nil => rfl
  | cons e rest ih =>
    rw [chainParticlesOfEntries, ih, List.flatMap_cons,
      chainParticlesOfList_eq_flatMap]

theorem chainParticles_mk (ps : List (Nat × Nat))
    (ds : List (Nat × List SourceCombo)) (z : Bool) :
    (SourceCombo.mk ps ds z).chainParticles
      = ps ++ ds.flatMap (fun e => e.2.flatMap SourceCombo.chainParticles) := by
  rw [SourceCombo.chainParticles, chainParticlesOfEntries_eq_flatMap]

/-- `DSourceCombo::Get_FurtherDecayCombos()[use]`: the sub-combo vector for
a given use (empty when absent). -/
def SourceCombo.decaysForUse (c : SourceCombo) (use : Nat) :
    List SourceCombo :=
  ((c.furtherDecays.find? (fun e => decide (e.1 = use))).map
    (fun e => e.2)).getD []

/-- Further-decay entries' contribution to the particle chain. -/
def entriesChain (ds : List (Nat × List SourceCombo)) : List (Nat × Nat) :=
  ds.flatMap (fun e => e.2.flatMap SourceCombo.chainParticles)

theorem chainParticles_eq (c : SourceCombo) :
    c.chainParticles = c.directParticles ++ entriesChain c.furtherDecays := by
  cases c with
  | mk ps ds z =>
    rw [chainParticles_mk]
    rfl

/-! ### Vertical comboing of N identical decays
(`Combo_Vertically_NDecays`, DSourceComboer.cc:1164-1275) -/

/-- The inner loop of `DSourceComboer::Combo_Vertically_NDecays`
(DSourceComboer.cc:1200-1274) for one combo of `N - 1` decays: take the
sorted snapshot of its entire transitive particle chain (lines 1221-1222);
for each candidate single-decay combo, skip FCAL-only combos on the
all-showers stage (lines 1236-1238), reject the candidate if any of its
chain particles is found in the snapshot by binary search ("TEST 2", lines
1240-1243); otherwise intersect the RF-bunch sets (line 1248), assemble the
decay vector -- `{comboNMinus1, candidate}` when `N = 2`, else the `N - 1`
combo's vector for the decay use extended by the candidate (lines
1251-1259) -- and emit the new combo with no direct particles and the single
further-decay entry (lines 1262-1264). -/
def combo_Vertically_NDecays_Step (stage : ComboingStage) (decayUse : Nat)
    (nIs2 : Bool) (comboNMinus1 : SourceCombo) (validRF_NMinus1 : List Int)
    (decayCombos1 : List (SourceCombo × List Int)) :
    List (SourceCombo × List Int) :=
  decayCombos1.filterMap (fun d =>
    if stage = ComboingStage.mixed
        ∧ (comboNMinus1.zIndependent && d.1.zIndependent) = true then none
    else if d.1.chainObjects.any (fun p =>
        ((comboNMinus1.chainObjects.insertionSort (· ≤ ·)).contains p))
      then none
    else some (SourceCombo.mk []
        [(decayUse, if nIs2 then [comboNMinus1, d.1]
          else comboNMinus1.decaysForUse decayUse ++ [d.1])]
        (comboNMinus1.zIndependent && d.1.zIndependent),
      get_CommonRFBunches validRF_NMinus1 d.2))

/-! ### Horizontal merge (`Combo_Horizontally_AddCombo`,
DSourceComboer.cc:1665-1841, and `Get_PromoteFlag`, lines 2212-2229) -/

/-- `DSourceComboer::Get_PromoteFlag` (DSourceComboer.cc:2212-2229): a combo
is promoted flat only if its use has no assigned decay PID (`Unknown`); then
its info's front further-decay entry (or, when it has none, its front
particle entry) is binary-searched among the created info's entries
(modelled as membership in the sorted vector).  A fully empty info cannot
occur (`front()` would be undefined); the model returns `false` there. -/
def get_PromoteFlag (decayPID_UseToCheck : Nat)
    (infoToCreate infoToCheck : SourceComboInfoData) : Bool :=
  if decayPID_UseToCheck ≠ Unknown then false
  else match infoToCheck.furtherDecays with
    | d :: _ => infoToCreate.furtherDecays.contains d
    | [] =>
      match infoToCheck.numParticles with
      | p :: _ => infoToCreate.numParticles.contains p
      | [] => false

/-- `std::map::insert(first, last)` on the further-decay map: inserts only
the entries whose key is not already present. -/
def decayMapInsertRange (base add : List (Nat × List SourceCombo)) :
    List (Nat × List SourceCombo) :=
  base ++ add.filter (fun e => !(base.any (fun b => decide (b.1 = e.1))))

/-- `std::map::emplace` on the further-decay map: inserts only when the key
is absent. -/
def decayMapEmplace (base : List (Nat × List SourceCombo)) (u : Nat)
    (v : List SourceCombo) : List (Nat × List SourceCombo) :=
  if base.any (fun b => decide (b.1 = u)) then base else base ++ [(u, v)]

/-- The combo assembled by `DSourceComboer::Combo_Horizontally_AddCombo` for
one all-but-1 combo and one to-add combo (DSourceComboer.cc:1788-1834), in
its four structural branches:
* expand-all-but-1 & promote-to-add (lines 1797-1804, 1807): the to-add's
  direct particles and decay entries are merged flat into the all-but-1's;
* expand-all-but-1 only (lines 1806-1807): the to-add is nested as a new
  decay entry of the all-but-1;
* side-by-side & promote-all-but-1 (lines 1813-1818): symmetric flat merge
  into the to-add's contents;
* side-by-side & promote-to-add (lines 1820-1825): flat merge as in the
  first branch;
* neither (lines 1827-1832): a fresh combo holding the all-but-1 and the
  to-add side by side as two decay entries. -/
def combo_Horizontally_AddCombo_Build (expandAllBut1 promoteToAdd
    promoteAllBut1 : Bool) (allBut1Use toAddUse : Nat)
    (comboAllBut1 toAdd : SourceCombo) (isZIndependent : Bool) :
    SourceCombo :=
  let fdAllBut1 := comboAllBut1.furtherDecays
  let psAllBut1 := comboAllBut1.directParticles
  if expandAllBut1 then
    if promoteToAdd then
      SourceCombo.mk (psAllBut1 ++ toAdd.directParticles)
        (decayMapInsertRange fdAllBut1 toAdd.furtherDecays) isZIndependent
    else
      SourceCombo.mk psAllBut1 (decayMapEmplace fdAllBut1 toAddUse [toAdd])
        isZIndependent
  else
    if promoteAllBut1 then
      SourceCombo.mk (toAdd.directParticles ++ psAllBut1)
        (decayMapInsertRange toAdd.furtherDecays fdAllBut1) isZIndependent
    else if promoteToAdd then
      SourceCombo.mk (psAllBut1 ++ toAdd.directParticles)
        (decayMapInsertRange fdAllBut1 toAdd.furtherDecays) isZIndependent
    else
      SourceCombo.mk []
        (decayMapEmplace (decayMapEmplace [] allBut1Use [comboAllBut1])
          toAddUse [toAdd]) isZIndependent

/-- The main loop of `DSourceComboer::Combo_Horizontally_AddCombo`
(DSourceComboer.cc:1751-1840): for each to-add candidate, skip FCAL-only
combos on the all-showers stage, reject candidates sharing any chain
particle with the all-but-1 combo (binary search over the sorted snapshot,
lines 1757-1779), intersect the RF-bunch sets unless on the charged stage
(lines 1784-1786), and assemble the merged combo. -/
def combo_Horizontally_AddCombo_Loop (stage : ComboingStage)
    (expandAllBut1 promoteToAdd promoteAllBut1 : Bool)
    (allBut1Use toAddUse : Nat) (comboAllBut1 : SourceCombo)
    (validRF_AllBut1 : List Int)
    (decayCombosToAdd : List (SourceCombo × List Int)) :
    List (SourceCombo × List Int) :=
  decayCombosToAdd.filterMap (fun d =>
    if stage = ComboingStage.mixed
        ∧ (comboAllBut1.zIndependent && d.1.zIndependent) = true then none
    else if d.1.chainObjects.any (fun p =>
        ((comboAllBut1.chainObjects.insertionSort (· ≤ ·)).contains p))
      then none
    else some (combo_Horizontally_AddCombo_Build expandAllBut1 promoteToAdd
        promoteAllBut1 allBut1Use toAddUse comboAllBut1 d.1
        (comboAllBut1.zIndependent && d.1.zIndependent),
      if stage = ComboingStage.charged then []
      else get_CommonRFBunches validRF_AllBut1 d.2))

theorem perm_append_middle {α : Type} (a b c d : List α) :
    ((a ++ b) ++ (c ++ d)).Perm ((a ++ c) ++ (b ++ d)) := by
  have h : (b ++ (c ++ d)).Perm (c ++ (b ++ d)) := by
    rw [← List.append_assoc, ← List.append_assoc]
    exact List.Perm.append_right d List.perm_append_comm
  rw [List.append_assoc, List.append_assoc]
  exact List.Perm.append_left a h

theorem decayMapInsertRange_of_disjoint
    {base add : List (Nat × List SourceCombo)}
    (h : ∀ e ∈ add, ∀ b ∈ base, b.1 ≠ e.1) :
    decayMapInsertRange base add = base ++ add := by
  unfold decayMapInsertRange
  congr 1
  rw [List.filter_eq_self]
  intro e he
  simp only [Bool.not_eq_true', List.any_eq_false, decide_eq_true_eq]
  intro b hb
  exact h e he b hb

theorem decayMapEmplace_of_absent {base : List (Nat × List SourceCombo)}
    {u : Nat} {v : List SourceCombo}
    (h : base.any (fun b => decide (b.1 = u)) = false) :
    decayMapEmplace base u v = base ++ [(u, v)] := by
  unfold decayMapEmplace
  rw [h]
  rfl

theorem entriesChain_append (l1 l2 : List (Nat × List SourceCombo)) :
    entriesChain (l1 ++ l2) = entriesChain l1 ++ entriesChain l2 :=
  List.flatMap_append l1 l2 _

theorem entriesChain_single (u : Nat) (v : List SourceCombo) :
    entriesChain [(u, v)] = v.flatMap SourceCombo.chainParticles := by
  unfold entriesChain
  simp

/-- Leaf preservation of the horizontal merge: in each of the four
structural branches of `Combo_Horizontally_AddCombo`, the transitive
particle chain of the merged combo is a permutation of the concatenated
chains of the all-but-1 combo and the to-add combo, provided the two
combos' decay maps have disjoint key sets, the to-add use is not already a
key of the all-but-1 combo's decay map, and the two top-level uses differ
(all of which hold by construction: the all-but-1 shape lacks exactly the
to-add class). -/
theorem addCombo_Build_chain_perm (ex pta pab : Bool) (abUse taUse : Nat)
    (X Y : SourceCombo) (z : Bool)
    (hdisj : ∀ k ∈ X.furtherDecays.map (fun e => e.1),
      k ∉ Y.furtherDecays.map (fun e => e.1))
    (htak : (X.furtherDecays.any (fun b => decide (b.1 = taUse))) = false)
    (huse : abUse ≠ taUse) :
    ((combo_Horizontally_AddCombo_Build ex pta pab abUse taUse X Y
        z).chainParticles).Perm
      (X.chainParticles ++ Y.chainParticles) := by
  have hXY : ∀ e ∈ Y.furtherDecays, ∀ b ∈ X.furtherDecays, b.1 ≠ e.1 := by
    intro e he b hb hbe
    exact hdisj b.1 (List.mem_map_of_mem _ hb)
      (hbe ▸ List.mem_map_of_mem _ he)
  have hYX : ∀ e ∈ X.furtherDecays, ∀ b ∈ Y.furtherDecays, b.1 ≠ e.1 := by
    intro e he b hb hbe
    exact hdisj e.1 (List.mem_map_of_mem _ he)
      (hbe ▸ List.mem_map_of_mem _ hb)
  have hXeq := chainParticles_eq X
  have hYeq := chainParticles_eq Y
  have hflat : ∀ ps ds zz, (SourceCombo.mk ps ds zz).chainParticles
      = ps ++ entriesChain ds := fun ps ds zz => chainParticles_mk ps ds zz
  cases ex with
  | true =>
    cases pta with
    | true =>
      have hb : combo_Horizontally_AddCombo_Build true true pab abUse taUse
          X Y z = SourceCombo.mk
            (X.directParticles ++ Y.directParticles)
            (decayMapInsertRange X.furtherDecays Y.furtherDecays) z := by
        simp [combo_Horizontally_AddCombo_Build]
      rw [hb, hflat, decayMapInsertRange_of_disjoint hXY, entriesChain_append,
        hXeq, hYeq]
      exact perm_append_middle _ _ _ _
    | false =>
      have hb : combo_Horizontally_AddCombo_Build true false pab abUse taUse
          X Y z = SourceCombo.mk X.directParticles
            (decayMapEmplace X.furtherDecays taUse [Y]) z := by
        simp [combo_Horizontally_AddCombo_Build]
      rw [hb, hflat, decayMapEmplace_of_absent htak, entriesChain_append,
        entriesChain_single, hXeq, hYeq]
      simp [hYeq, List.append_assoc]
  | false =>
    cases pab with
    | true =>
      have hb : combo_Horizontally_AddCombo_Build false pta true abUse taUse
          X Y z = SourceCombo.mk
            (Y.directParticles ++ X.directParticles)
            (decayMapInsertRange Y.furtherDecays X.furtherDecays) z := by
        simp [combo_Horizontally_AddCombo_Build]
      rw [hb, hflat, decayMapInsertRange_of_disjoint hYX, entriesChain_append,
        hXeq, hYeq]
      exact (perm_append_middle _ _ _ _).trans List.perm_append_comm
    | false =>
      cases pta with
      | true =>
        have hb : combo_Horizontally_AddCombo_Build false true false abUse
            taUse X Y z = SourceCombo.mk
              (X.directParticles ++ Y.directParticles)
              (decayMapInsertRange X.furtherDecays Y.furtherDecays) z := by
          simp [combo_Horizontally_AddCombo_Build]
        rw [hb, hflat, decayMapInsertRange_of_disjoint hXY,
          entriesChain_append, hXeq, hYeq]
        exact perm_append_middle _ _ _ _
      | false =>
        have hb : combo_Horizontally_AddCombo_Build false false false abUse
            taUse X Y z = SourceCombo.mk []
              (decayMapEmplace (decayMapEmplace [] abUse [X]) taUse [Y])
              z := by
          simp [combo_Horizontally_AddCombo_Build]
        have he1 : decayMapEmplace ([] : List (Nat × List SourceCombo))
            abUse [X] = [(abUse, [X])] := decayMapEmplace_of_absent (by simp)
        have he2 : decayMapEmplace [(abUse, [X])] taUse [Y]
            = [(abUse, [X]), (taUse, [Y])] := by
          have := @decayMapEmplace_of_absent [(abUse, [X])] taUse [Y]
            (by simp [huse])
          simpa using this
        rw [hb, he1, he2, hflat]
        have hsplit : ([(abUse, [X]), (taUse, [Y])] :
            List (Nat × List SourceCombo)) = [(abUse, [X])] ++ [(taUse, [Y])] := rfl
        rw [List.nil_append, hsplit, entriesChain_append, entriesChain_single,
          entriesChain_single, hXeq, hYeq]
        simp [hXeq, hYeq, List.append_assoc]

/-- Membership characterization of the `Combo_Horizontally_AddCombo` loop:
every emitted combo arises from a candidate that passed the stage skip and
the duplicate-leaf rejection, with the merged structure built by the
four-branch assembly and the RF bunches intersected (or the empty sentinel
on the charged stage). -/
theorem addCombo_Loop_mem (stage : ComboingStage)
    (ex pta pab : Bool) (abUse taUse : Nat) (X : SourceCombo)
    (rfX : List Int) (cands : List (SourceCombo × List Int)) :
    ∀ e ∈ combo_Horizontally_AddCombo_Loop stage ex pta pab abUse taUse X
        rfX cands,
      ∃ d ∈ cands,
        ((d : SourceCombo × List Int).1.chainObjects.any
          (fun p => ((X.chainObjects.insertionSort (· ≤ ·)).contains p)))
            = false
        ∧ e.1 = combo_Horizontally_AddCombo_Build ex pta pab abUse taUse X
            d.1 (X.zIndependent && d.1.zIndependent)
        ∧ e.2 = (if stage = ComboingStage.charged then []
            else get_CommonRFBunches rfX d.2) := by
  intro e he
  unfold combo_Horizontally_AddCombo_Loop at he
  simp only [List.mem_filterMap] at he
  obtain ⟨d, hd, heq⟩ := he
  by_cases h1 : stage = ComboingStage.mixed
    ∧ ((X.zIndependent && d.1.zIndependent) = true)
  · rw [if_pos h1] at heq
    exact absurd heq (by simp)
  · rw [if_neg h1] at heq
    by_cases h2 : (d.1.chainObjects.any
        (fun p => ((X.chainObjects.insertionSort (· ≤ ·)).contains p))) = true
    · rw [if_pos h2] at heq
      exact absurd heq (by simp)
    · rw [if_neg h2] at heq
      refine ⟨d, hd, by simpa using h2, ?_, ?_⟩
      · exact (Option.some_injective _ heq).symm ▸ rfl
      · exact (Option.some_injective _ heq).symm ▸ rfl

/-- Membership characterization of the `Combo_Vertically_NDecays` inner
loop: every emitted combo arises from a candidate passing the stage skip
and the duplicate-leaf rejection ("TEST 2"); the combo holds exactly the
extended decay vector and the intersected RF bunches. -/
theorem nDecays_Step_mem (stage : ComboingStage) (decayUse : Nat)
    (nIs2 : Bool) (X : SourceCombo) (rfX : List Int)
    (cands : List (SourceCombo × List Int)) :
    ∀ e ∈ combo_Vertically_NDecays_Step stage decayUse nIs2 X rfX cands,
      ∃ d ∈ cands,
        ((d : SourceCombo × List Int).1.chainObjects.any
          (fun p => ((X.chainObjects.insertionSort (· ≤ ·)).contains p)))
            = false
        ∧ e.1 = SourceCombo.mk []
            [(decayUse, if nIs2 then [X, d.1]
              else X.decaysForUse decayUse ++ [d.1])]
            (X.zIndependent && d.1.zIndependent)
        ∧ e.2 = get_CommonRFBunches rfX d.2 := by
  intro e he
  unfold combo_Vertically_NDecays_Step at he
  simp only [List.mem_filterMap] at he
  obtain ⟨d, hd, heq⟩ := he
  by_cases h1 : stage = ComboingStage.mixed
    ∧ ((X.zIndependent && d.1.zIndependent) = true)
  · rw [if_pos h1] at heq
    exact absurd heq (by simp)
  · rw [if_neg h1] at heq
    by_cases h2 : (d.1.chainObjects.any
        (fun p => ((X.chainObjects.insertionSort (· ≤ ·)).contains p))) = true
    · rw [if_pos h2] at heq
      exact absurd heq (by simp)
    · rw [if_neg h2] at heq
      refine ⟨d, hd, by simpa using h2, ?_, ?_⟩
      · exact (Option.some_injective _ heq).symm ▸ rfl
      · exact (Option.some_injective _ heq).symm ▸ rfl

/-- A failed duplicate search means the candidate's chain objects are
disjoint from the partial combo's: `std::binary_search` over the sorted
snapshot is membership in the original chain. -/
theorem guard_false_disjoint {d X : SourceCombo}
    (h : (d.chainObjects.any
      (fun p => ((X.chainObjects.insertionSort (· ≤ ·)).contains p)))
        = false) :
    ∀ p ∈ d.chainObjects, p ∉ X.chainObjects := by
  intro p hp hmem
  have hfalse := List.any_eq_false.1 h p hp
  apply hfalse
  exact List.elem_iff.2 ((List.mem_insertionSort _).2 hmem)

theorem chainObjects_append_of_mk (ps : List (Nat × Nat))
    (ds : List (Nat × List SourceCombo)) (z : Bool) :
    (SourceCombo.mk ps ds z).chainObjects
      = sourceObjects ps ++ sourceObjects (entriesChain ds) := by
  unfold SourceCombo.chainObjects sourceObjects
  rw [chainParticles_eq]
  exact List.map_append _ _ _

/-- Claim C8: in every structural branch of the horizontal merge, the
transitive leaf-particle multiset of the merged combo is exactly the
disjoint union of the transitive leaves of the all-but-1 combo and of the
added combo: for every combo emitted by the `Combo_Horizontally_AddCombo`
loop, whatever the expand/promote flags, its chain is a permutation of the
two constituents' chains concatenated.  The key-disjointness hypotheses
hold by construction (the all-but-1 shape lacks exactly the to-add
class). -/
theorem addCombo_promotion_preserves_leaves (stage : ComboingStage)
    (ex pta pab : Bool) (abUse taUse : Nat) (X : SourceCombo)
    (rfX : List Int) (cands : List (SourceCombo × List Int))
    (hdisj : ∀ d ∈ cands, ∀ k ∈ X.furtherDecays.map (fun e => e.1),
      k ∉ (d : SourceCombo × List Int).1.furtherDecays.map (fun e => e.1))
    (htak : (X.furtherDecays.any (fun b => decide (b.1 = taUse))) = false)
    (huse : abUse ≠ taUse) :
    ∀ e ∈ combo_Horizontally_AddCombo_Loop stage ex pta pab abUse taUse X
        rfX cands,
      ∃ d ∈ cands,
        e.1.chainParticles.Perm
          (X.chainParticles ++ (d : SourceCombo × List Int).1.chainParticles)
        ∧ e.1.chainObjects.Perm
          (X.chainObjects ++ (d : SourceCombo × List Int).1.chainObjects) := by
  intro e he
  obtain ⟨d, hd, hguard, hbuild, hrf⟩ :=
    addCombo_Loop_mem stage ex pta pab abUse taUse X rfX cands e he
  refine ⟨d, hd, ?_, ?_⟩
  · rw [hbuild]
    exact addCombo_Build_chain_perm ex pta pab abUse taUse X d.1
      (X.zIndependent && d.1.zIndependent)
      (fun k hk => hdisj d hd k hk) htak huse
  · rw [hbuild]
    unfold SourceCombo.chainObjects sourceObjects
    rw [← List.map_append]
    exact List.Perm.map _ (addCombo_Build_chain_perm ex pta pab abUse taUse
      X d.1 (X.zIndependent && d.1.zIndependent)
      (fun k hk => hdisj d hd k hk) htak huse)

/-- Witness for `addCombo_promotion_preserves_leaves`: merging the all-but-1
combo holding particle 1 (decay use 5 nesting particle 2) with a candidate
holding particles 3,4 under decay use 6, in the expand/promote branch. -/
theorem addCombo_promotion_preserves_leaves_witness :
    ∃ e ∈ combo_Horizontally_AddCombo_Loop ComboingStage.charged true true
        false 8 6 (SourceCombo.mk [(14, 1)] [(5, [SourceCombo.mk [(1, 2)] []
          false])] false) []
        [(SourceCombo.mk [(1, 3), (1, 4)] [(6, [])] false, [])],
      ∃ d ∈ [(SourceCombo.mk [(1, 3), (1, 4)] [(6, [])] false,
          ([] : List Int))],
        e.1.chainParticles.Perm
          ((SourceCombo.mk [(14, 1)] [(5, [SourceCombo.mk [(1, 2)] []
            false])] false).chainParticles
            ++ (d : SourceCombo × List Int).1.chainParticles)
        ∧ e.1.chainObjects.Perm
          ((SourceCombo.mk [(14, 1)] [(5, [SourceCombo.mk [(1, 2)] []
            false])] false).chainObjects
            ++ (d : SourceCombo × List Int).1.chainObjects) := by
  have hmem : (combo_Horizontally_AddCombo_Build true true false 8 6
      (SourceCombo.mk [(14, 1)] [(5, [SourceCombo.mk [(1, 2)] [] false])]
        false)
      (SourceCombo.mk [(1, 3), (1, 4)] [(6, [])] false) false,
      ([] : List Int)) ∈ combo_Horizontally_AddCombo_Loop
        ComboingStage.charged true true false 8 6
        (SourceCombo.mk [(14, 1)] [(5, [SourceCombo.mk [(1, 2)] [] false])]
          false) []
        [(SourceCombo.mk [(1, 3), (1, 4)] [(6, [])] false, [])] := by
    have hout : combo_Horizontally_AddCombo_Loop ComboingStage.charged true
        true false 8 6
        (SourceCombo.mk [(14, 1)] [(5, [SourceCombo.mk [(1, 2)] [] false])]
          false) []
        [(SourceCombo.mk [(1, 3), (1, 4)] [(6, [])] false, [])]
        = [(combo_Horizontally_AddCombo_Build true true false 8 6
            (SourceCombo.mk [(14, 1)] [(5, [SourceCombo.mk [(1, 2)] []
              false])] false)
            (SourceCombo.mk [(1, 3), (1, 4)] [(6, [])] false) false,
            ([] : List Int))] := by rfl
    rw [hout]
    exact List.mem_singleton.mpr rfl
  exact ⟨_, hmem, addCombo_promotion_preserves_leaves ComboingStage.charged
    true true false 8 6 _ [] _ (by decide) (by decide) (by decide) _ hmem⟩

theorem chainParticles_vertGroup (du : Nat) (w : List SourceCombo)
    (zz : Bool) :
    (SourceCombo.mk [] [(du, w)] zz).chainParticles
      = w.flatMap SourceCombo.chainParticles := by
  rw [chainParticles_mk]
  simp

theorem decaysForUse_vertGroup (du : Nat) (v : List SourceCombo) (z : Bool) :
    (SourceCombo.mk [] [(du, v)] z).decaysForUse du = v := by
  unfold SourceCombo.decaysForUse SourceCombo.furtherDecays
  simp

theorem nodup_append_of_disjoint {l1 l2 : List Nat} (h1 : l1.Nodup)
    (h2 : l2.Nodup) (hd : ∀ p ∈ l2, p ∉ l1) : (l1 ++ l2).Nodup := by
  rw [List.nodup_append]
  exact ⟨h1, h2, fun a ha hb => hd a hb ha⟩

/-- Modelled from the spec:
`DAnalysis::Get_SourceParticles(pairs, PID)` (free function declared
outside src/, used at DSourceComboer.cc:1882) restricts a
`(PID, particle)` pair list to the entries of one PID and returns their
particle objects. -/
def sourceObjectsOfPID (pairs : List (Nat × Nat)) (pid : Nat) : List Nat :=
  (pairs.filter (fun pr => decide (pr.1 = pid))).map (fun pr => pr.2)

/-- The per-all-but-1-combo loop of
`DSourceComboer::Combo_Horizontally_AddParticle` (DSourceComboer.cc:
1875-1917).  The duplicate-search snapshot is the all-but-1 combo's entire
transitive particle chain (`Get_SourceParticles(true)`, line 1881)
restricted to the PID being added (line 1882) and sorted (line 1883); for
each candidate particle: skip FCAL-only groupings on the all-showers stage
(lines 1896-1898), reject the particle when the binary search finds it
among the SAME-PID used particles (line 1901), otherwise intersect the RF
bunches for photons (line 1906) and emit a combo whose direct members are
the all-but-1 ENTIRE chain pairs plus the new pair (lines 1909-1912), with
the all-but-1 further-decay map copied. -/
def combo_Horizontally_AddParticle_Loop (stage : ComboingStage) (pid : Nat)
    (validRF : Nat → List Int) (isZInd : Nat → Bool)
    (comboAllBut1 : SourceCombo) (rfAllBut1 : List Int)
    (particles : List Nat) : List (SourceCombo × List Int) :=
  particles.filterMap (fun p =>
    if stage = ComboingStage.mixed
        ∧ (decide (stage = ComboingStage.mixedZIndependent)
            || (comboAllBut1.zIndependent && isZInd p)) = true then none
    else if ((sourceObjectsOfPID comboAllBut1.chainParticles pid).insertionSort
        (· ≤ ·)).contains p then none
    else some (SourceCombo.mk (comboAllBut1.chainParticles ++ [(pid, p)])
        comboAllBut1.furtherDecays
        (decide (stage = ComboingStage.mixedZIndependent)
          || (comboAllBut1.zIndependent && isZInd p)),
      if pid = Gamma then get_CommonRFBunches rfAllBut1 (validRF p)
      else rfAllBut1))

/-- Membership characterization of the `Combo_Horizontally_AddParticle`
loop: every emitted combo arises from a candidate particle that passed the
stage skip and the same-PID duplicate search, holds the entire all-but-1
chain pairs plus the new pair as direct members, and carries the
intersected RF bunches (photons) or the all-but-1 bunches unchanged. -/
theorem addParticle_Loop_mem (stage : ComboingStage) (pid : Nat)
    (validRF : Nat → List Int) (isZInd : Nat → Bool) (A : SourceCombo)
    (rfA : List Int) (particles : List Nat) :
    ∀ e ∈ combo_Horizontally_AddParticle_Loop stage pid validRF isZInd A
        rfA particles,
      ∃ p ∈ particles,
        (((sourceObjectsOfPID A.chainParticles pid).insertionSort
          (· ≤ ·)).contains p) = false
        ∧ e.1 = SourceCombo.mk (A.chainParticles ++ [(pid, p)])
            A.furtherDecays
            (decide (stage = ComboingStage.mixedZIndependent)
              || (A.zIndependent && isZInd p))
        ∧ e.2 = (if pid = Gamma then get_CommonRFBunches rfA (validRF p)
            else rfA) := by
  intro e he
  unfold combo_Horizontally_AddParticle_Loop at he
  simp only [List.mem_filterMap] at he
  obtain ⟨p, hp, heq⟩ := he
  by_cases h1 : stage = ComboingStage.mixed
    ∧ ((decide (stage = ComboingStage.mixedZIndependent)
        || (A.zIndependent && isZInd p)) = true)
  · rw [if_pos h1] at heq
    exact absurd heq (by simp)
  · rw [if_neg h1] at heq
    by_cases h2 : (((sourceObjectsOfPID A.chainParticles pid).insertionSort
        (· ≤ ·)).contains p) = true
    · rw [if_pos h2] at heq
      exact absurd heq (by simp)
    · rw [if_neg h2] at heq
      refine ⟨p, hp, by simpa using h2, ?_, ?_⟩
      · exact (Option.some_injective _ heq).symm ▸ rfl
      · exact (Option.some_injective _ heq).symm ▸ rfl

theorem sourceObjects_append (a b : List (Nat × Nat)) :
    sourceObjects (a ++ b) = sourceObjects a ++ sourceObjects b := by
  unfold sourceObjects
  exact List.map_append _ _ _

/-- Counterexample to claim C2: `Combo_Horizontally_AddParticle` searches
only the used particles OF THE PID BEING ADDED (DSourceComboer.cc:
1881-1882, 1901), so a detected object already used under a DIFFERENT PID
hypothesis is not rejected.  Adding object 7 as PID 14 to an all-but-1
combo that already holds object 7 as PID 9 emits a combo whose transitive
chain objects are [7, 7]: a repeated leaf. -/
theorem addParticle_crossPID_duplicateLeaf :
    combo_Horizontally_AddParticle_Loop ComboingStage.charged 14
        (fun _ => []) (fun _ => false) (SourceCombo.mk [(9, 7)] [] false)
        [] [7]
      = [(SourceCombo.mk [(9, 7), (14, 7)] [] false, [])]
    ∧ (SourceCombo.mk [(9, 7), (14, 7)] [] false).chainObjects = [7, 7]
    ∧ ¬ (SourceCombo.mk [(9, 7), (14, 7)] [] false).chainObjects.Nodup := by
  refine ⟨rfl, rfl, ?_⟩
  rw [show (SourceCombo.mk [(9, 7), (14, 7)] [] false).chainObjects
    = [7, 7] from rfl]
  decide

/-- Claim C2 (amended): among the three combining operations, the vertical
N-decay extension and the horizontal combo merge reject every candidate
sharing any transitive leaf with the partial combo and so preserve
duplicate-freeness unconditionally; the horizontal PARTICLE addition
searches only the used particles of the PID being added
(DSourceComboer.cc:1882), so its output is duplicate-free only under the
extra hypothesis that no candidate particle occurs anywhere in the
all-but-1 combo's chain (under any PID); the decay map double-count is
avoided by a leaf-only all-but-1 combo. -/
theorem producedCombos_noDuplicateLeaves_amended (stage : ComboingStage)
    (decayUse : Nat) (nIs2 : Bool) (v : List SourceCombo) (z : Bool)
    (rfX : List Int) (cands : List (SourceCombo × List Int))
    (stage2 : ComboingStage) (ex pta pab : Bool) (abUse taUse : Nat)
    (W : SourceCombo) (rfW : List Int)
    (cands2 : List (SourceCombo × List Int))
    (stage3 : ComboingStage) (pid : Nat) (validRF2 : Nat → List Int)
    (isZInd2 : Nat → Bool) (A : SourceCombo) (rfA : List Int)
    (particles : List Nat)
    (hX : (SourceCombo.mk [] [(decayUse, v)] z).chainObjects.Nodup)
    (hc : ∀ d ∈ cands, (d : SourceCombo × List Int).1.chainObjects.Nodup)
    (hW : W.chainObjects.Nodup)
    (hc2 : ∀ d ∈ cands2, (d : SourceCombo × List Int).1.chainObjects.Nodup)
    (hdisj : ∀ d ∈ cands2, ∀ k ∈ W.furtherDecays.map (fun e => e.1),
      k ∉ (d : SourceCombo × List Int).1.furtherDecays.map (fun e => e.1))
    (htak : (W.furtherDecays.any (fun b => decide (b.1 = taUse))) = false)
    (huse : abUse ≠ taUse)
    (hA : A.chainObjects.Nodup)
    (hAfd : A.furtherDecays = [])
    (hAp : ∀ p ∈ particles, p ∉ A.chainObjects) :
    (∀ e ∈ combo_Vertically_NDecays_Step stage decayUse nIs2
        (SourceCombo.mk [] [(decayUse, v)] z) rfX cands,
      (∃ d ∈ cands,
        (∀ p ∈ (d : SourceCombo × List Int).1.chainObjects,
          p ∉ (SourceCombo.mk [] [(decayUse, v)] z).chainObjects)
        ∧ e.1.chainObjects
          = (SourceCombo.mk [] [(decayUse, v)] z).chainObjects
            ++ (d : SourceCombo × List Int).1.chainObjects)
      ∧ e.1.chainObjects.Nodup)
    ∧ (∀ e ∈ combo_Horizontally_AddCombo_Loop stage2 ex pta pab abUse taUse
        W rfW cands2, e.1.chainObjects.Nodup)
    ∧ (∀ e ∈ combo_Horizontally_AddParticle_Loop stage3 pid validRF2
        isZInd2 A rfA particles, e.1.chainObjects.Nodup) := by
  refine ⟨?_, ?_, ?_⟩
  · intro e he
    obtain ⟨d, hd, hguard, hbuild, _⟩ := nDecays_Step_mem stage decayUse nIs2
      (SourceCombo.mk [] [(decayUse, v)] z) rfX cands e he
    have hdisjChain := guard_false_disjoint hguard
    have heq : e.1.chainObjects
        = (SourceCombo.mk [] [(decayUse, v)] z).chainObjects
          ++ d.1.chainObjects := by
      rw [hbuild]
      cases nIs2 with
      | true =>
        unfold SourceCombo.chainObjects sourceObjects
        rw [if_pos rfl, chainParticles_vertGroup]
        simp
      | false =>
        unfold SourceCombo.chainObjects sourceObjects
        rw [if_neg (by simp), decaysForUse_vertGroup,
          chainParticles_vertGroup, chainParticles_vertGroup]
        simp
    refine ⟨⟨d, hd, hdisjChain, heq⟩, ?_⟩
    rw [heq]
    exact nodup_append_of_disjoint hX (hc d hd) hdisjChain
  · intro e he
    obtain ⟨d, hd, hguard, hbuild, _⟩ := addCombo_Loop_mem stage2 ex pta pab
      abUse taUse W rfW cands2 e he
    have hperm : e.1.chainObjects.Perm (W.chainObjects ++ d.1.chainObjects) := by
      rw [hbuild]
      unfold SourceCombo.chainObjects sourceObjects
      rw [← List.map_append]
      exact List.Perm.map _ (addCombo_Build_chain_perm ex pta pab abUse taUse
        W d.1 (W.zIndependent && d.1.zIndependent)
        (fun k hk => hdisj d hd k hk) htak huse)
    rw [hperm.nodup_iff]
    exact nodup_append_of_disjoint hW (hc2 d hd) (guard_false_disjoint hguard)
  · intro e he
    obtain ⟨p, hp, _, hbuild, _⟩ := addParticle_Loop_mem stage3 pid validRF2
      isZInd2 A rfA particles e he
    have heq : e.1.chainObjects = A.chainObjects ++ [p] := by
      rw [hbuild, hAfd, chainObjects_append_of_mk, sourceObjects_append]
      show sourceObjects A.chainParticles ++ sourceObjects [(pid, p)]
          ++ sourceObjects (entriesChain []) = A.chainObjects ++ [p]
      rw [show entriesChain [] = [] from rfl]
      show A.chainObjects ++ [p] ++ [] = A.chainObjects ++ [p]
      exact List.append_nil _
    rw [heq]
    exact nodup_append_of_disjoint hA (List.nodup_singleton p)
      (fun q hq => by
        rw [List.mem_singleton] at hq
        exact hq ▸ hAp p hp)

/-- Witness for `producedCombos_noDuplicateLeaves_amended`: a pi0-style
N = 2 grouping of a two-photon combo over showers 1,2 with a candidate over
showers 3,4 produces the concrete grouped combo, whose transitive chain
objects [1, 2, 3, 4] are duplicate-free. -/
theorem producedCombos_noDuplicateLeaves_amended_witness :
    (SourceCombo.mk []
        [(5, [SourceCombo.mk [] [(5, [SourceCombo.mk [(1, 1), (1, 2)] []
            false])] false,
          SourceCombo.mk [(1, 3), (1, 4)] [] false])] false, ([] : List Int))
      ∈ combo_Vertically_NDecays_Step ComboingStage.charged 5 true
        (SourceCombo.mk [] [(5, [SourceCombo.mk [(1, 1), (1, 2)] [] false])]
          false) []
        [(SourceCombo.mk [(1, 3), (1, 4)] [] false, [])]
    ∧ (SourceCombo.mk []
        [(5, [SourceCombo.mk [] [(5, [SourceCombo.mk [(1, 1), (1, 2)] []
            false])] false,
          SourceCombo.mk [(1, 3), (1, 4)] [] false])]
        false).chainObjects.Nodup := by
  have hmem : (SourceCombo.mk []
      [(5, [SourceCombo.mk [] [(5, [SourceCombo.mk [(1, 1), (1, 2)] []
          false])] false,
        SourceCombo.mk [(1, 3), (1, 4)] [] false])] false, ([] : List Int))
      ∈ combo_Vertically_NDecays_Step ComboingStage.charged 5 true
        (SourceCombo.mk [] [(5, [SourceCombo.mk [(1, 1), (1, 2)] [] false])]
          false) []
        [(SourceCombo.mk [(1, 3), (1, 4)] [] false, [])] := by
    have hout : combo_Vertically_NDecays_Step ComboingStage.charged 5 true
        (SourceCombo.mk [] [(5, [SourceCombo.mk [(1, 1), (1, 2)] [] false])]
          false) []
        [(SourceCombo.mk [(1, 3), (1, 4)] [] false, [])]
        = [(SourceCombo.mk []
            [(5, [SourceCombo.mk [] [(5, [SourceCombo.mk [(1, 1), (1, 2)] []
                false])] false,
              SourceCombo.mk [(1, 3), (1, 4)] [] false])] false,
            ([] : List Int))] := by rfl
    rw [hout]
    exact List.mem_singleton.mpr rfl
  exact ⟨hmem, ((producedCombos_noDuplicateLeaves_amended
    ComboingStage.charged 5
    true [SourceCombo.mk [(1, 1), (1, 2)] [] false] false []
    [(SourceCombo.mk [(1, 3), (1, 4)] [] false, [])]
    ComboingStage.charged true true false 8 6
    (SourceCombo.mk [(14, 1)] [] false) [] []
    ComboingStage.charged 14 (fun _ => []) (fun _ => false)
    (SourceCombo.mk [(9, 7)] [] false) [] [3]
    (by decide) (by decide) (by decide) (by decide) (by decide) (by decide)
    (by decide) (by decide) rfl (by decide)).1 _ hmem).2⟩

theorem pairLoopBody_gamma_eq_some {stage : ComboingStage}
    {validRF : Nat → List Int} {isZInd : Nat → Bool} {pr : Nat × Nat}
    {e : List Nat × List Int}
    (h : pairLoopBody stage true validRF isZInd pr = some e) :
    e = ([pr.1, pr.2], get_CommonRFBunches (validRF pr.1) (validRF pr.2))
    ∧ get_CommonRFBunches (validRF pr.1) (validRF pr.2) ≠ [] := by
  unfold pairLoopBody at h
  by_cases h1 : stage = ComboingStage.mixed
      ∧ (decide (stage = ComboingStage.mixedZIndependent)
          || (isZInd pr.1 && isZInd pr.2)) = true
  · rw [if_pos h1] at h
    exact absurd h (by simp)
  · rw [if_neg h1] at h
    by_cases h2 : get_CommonRFBunches (validRF pr.1) (validRF pr.2) = []
    · simp [h2] at h
    · have hcond : ¬ ((true = true)
          ∧ (if (true : Bool) = true
              then get_CommonRFBunches (validRF pr.1) (validRF pr.2)
              else []) = []) := by
        simp [h2]
      rw [if_neg hcond] at h
      have hpe := Option.some_injective _ h
      constructor
      · rw [← hpe]
        simp
      · exact h2

theorem pairLoopBody_nonGamma_eq_some {stage : ComboingStage}
    {validRF : Nat → List Int} {isZInd : Nat → Bool} {pr : Nat × Nat}
    {e : List Nat × List Int}
    (h : pairLoopBody stage false validRF isZInd pr = some e) :
    e = ([pr.1, pr.2], []) := by
  unfold pairLoopBody at h
  by_cases h1 : stage = ComboingStage.mixed
      ∧ (decide (stage = ComboingStage.mixedZIndependent)
          || (isZInd pr.1 && isZInd pr.2)) = true
  · rw [if_pos h1] at h
    exact absurd h (by simp)
  · rw [if_neg h1] at h
    simp at h
    exact h.symm

/-- Claim C3: the beam-bunch set of every composed combo is the intersection
of its direct constituents' sets, with the empty set as the "no constraint"
sentinel.  `Get_CommonRFBunches` treats an empty side as unconstrained; in
the photon N = 2 pair loop every produced combo stores exactly the
intersection of its two showers' sets and pairs with empty intersection are
rejected; for non-photon PIDs the stored set is the empty sentinel; in the
N-decays loop every produced combo stores the intersection of the N-1
combo's and the added combo's sets; and the concrete photon pair with
disjoint sets {1,2} and {5,6} produces no combo at all. -/
theorem beamBunchSet_intersection_law :
    (∀ b : List Int, get_CommonRFBunches [] b = b)
    ∧ (∀ a : List Int, get_CommonRFBunches a [] = a)
    ∧ (∀ (stage : ComboingStage) (validRF : Nat → List Int)
        (isZInd : Nat → Bool) (pool : List Nat)
        (l : List (List Nat × List Int)),
        combo_Vertically_NParticles_Pairs stage true validRF isZInd pool
          = some l →
        ∀ e ∈ l, (∃ pr ∈ pairsFrom pool,
          e = ([pr.1, pr.2],
            get_CommonRFBunches (validRF pr.1) (validRF pr.2)))
          ∧ e.2 ≠ [])
    ∧ (∀ (stage : ComboingStage) (validRF : Nat → List Int)
        (isZInd : Nat → Bool) (pool : List Nat)
        (l : List (List Nat × List Int)),
        combo_Vertically_NParticles_Pairs stage true validRF isZInd pool
          = some l →
        ∀ x y : Nat, get_CommonRFBunches (validRF x) (validRF y) = [] →
        ∀ e ∈ l, e.1 ≠ [x, y])
    ∧ (∀ (stage : ComboingStage) (validRF : Nat → List Int)
        (isZInd : Nat → Bool) (pool : List Nat)
        (l : List (List Nat × List Int)),
        combo_Vertically_NParticles_Pairs stage false validRF isZInd pool
          = some l → ∀ e ∈ l, e.2 = [])
    ∧ (∀ (stage : ComboingStage) (decayUse : Nat) (nIs2 : Bool)
        (X : SourceCombo) (rfX : List Int)
        (cands : List (SourceCombo × List Int)),
        ∀ e ∈ combo_Vertically_NDecays_Step stage decayUse nIs2 X rfX cands,
          ∃ d ∈ cands, e.2 = get_CommonRFBunches rfX
            (d : SourceCombo × List Int).2)
    ∧ combo_Vertically_NParticles_Pairs ComboingStage.charged true
        (fun n => if n = 0 then [1, 2] else [5, 6]) (fun _ => false) [0, 1]
        = some [] := by
  have hchar : ∀ (stage : ComboingStage) (validRF : Nat → List Int)
      (isZInd : Nat → Bool) (pool : List Nat)
      (l : List (List Nat × List Int)),
      combo_Vertically_NParticles_Pairs stage true validRF isZInd pool
        = some l →
      ∀ e ∈ l, (∃ pr ∈ pairsFrom pool,
        e = ([pr.1, pr.2],
          get_CommonRFBunches (validRF pr.1) (validRF pr.2)))
        ∧ e.2 ≠ [] := by
    intro stage validRF isZInd pool l hsome e he
    match pool, hsome with
    | a :: rest, hsome =>
      unfold combo_Vertically_NParticles_Pairs at hsome
      have hl := Option.some_injective _ hsome
      rw [← hl] at he
      obtain ⟨pr, hpr, heq⟩ := List.mem_filterMap.1 he
      obtain ⟨h1, h2⟩ := pairLoopBody_gamma_eq_some heq
      exact ⟨⟨pr, hpr, h1⟩, by rw [h1]; exact h2⟩
  refine ⟨?_, ?_, hchar, ?_, ?_, ?_, ?_⟩
  · intro b
    unfold get_CommonRFBunches
    simp
  · intro a
    unfold get_CommonRFBunches
    by_cases h : a = [] <;> simp [h]
  · intro stage validRF isZInd pool l hsome x y hcommon e he habs
    obtain ⟨⟨pr, _, h1⟩, h2⟩ := hchar stage validRF isZInd pool l hsome e he
    have hx : pr.1 = x ∧ pr.2 = y := by
      have hxy : e.1 = [pr.1, pr.2] := by rw [h1]
      rw [habs] at hxy
      have := List.cons.injEq x [y] pr.1 [pr.2] ▸ hxy
      simp at hxy
      exact ⟨hxy.1.symm, hxy.2.symm⟩
    apply h2
    rw [h1, hx.1, hx.2]
    exact hcommon
  · intro stage validRF isZInd pool l hsome e he
    match pool, hsome with
    | a :: rest, hsome =>
      unfold combo_Vertically_NParticles_Pairs at hsome
      have hl := Option.some_injective _ hsome
      rw [← hl] at he
      obtain ⟨pr, hpr, heq⟩ := List.mem_filterMap.1 he
      rw [pairLoopBody_nonGamma_eq_some heq]
  · intro stage decayUse nIs2 X rfX cands e he
    obtain ⟨d, hd, _, _, hrf⟩ := nDecays_Step_mem stage decayUse nIs2 X rfX
      cands e he
    exact ⟨d, hd, hrf⟩
  · decide

/-- Witness for `beamBunchSet_intersection_law`: two photons sharing bunch
sets {1,2} produce the single pair combo with exactly that intersection. -/
theorem beamBunchSet_intersection_law_witness :
    ∀ e ∈ [(([0, 1] : List Nat), ([1, 2] : List Int))],
      (∃ pr ∈ pairsFrom [0, 1],
        e = ([pr.1, pr.2], get_CommonRFBunches ((fun _ => [1, 2]) pr.1)
          ((fun _ => [1, 2]) pr.2)))
      ∧ e.2 ≠ [] :=
  beamBunchSet_intersection_law.2.2.1 ComboingStage.charged
    (fun _ => [1, 2]) (fun _ => false) [0, 1] [([0, 1], [1, 2])] (by decide)

/-! ### Create_SourceCombos: cut placement for decay-specific uses
(DSourceComboer.cc:948-1051) -/

/-- The decay-use result stored by `DSourceComboer::Create_SourceCombos`
after the Unknown-use combos exist (DSourceComboer.cc:948-1051): on the
charged stage a non-charged info is copied through unchanged, no cut
(lines 972-977); an info transitively containing a massive neutral stores
the Unknown-use list itself, the invariant-mass cut deferred to the beam
stage (lines 988-993); on the all-showers stage the target vector is first
seeded with the FCAL-only results of the created use by
`Copy_ZIndependentMixedResults` (lines 996-997; the `fcalDecayResults`
parameter); if moreover the requested vertex-z bin is the Unknown sentinel,
the Unknown-use combos past the FCAL-only Unknown-use prefix (of length
`fcalUnknownCount`, line 1012) are appended UNCUT and the function returns
(lines 1004-1027: "we need a zbin for BCAL showers, but it is unknown:
can't cut yet!"); otherwise the Unknown-use combos are looped over, each
pushed exactly when it passes `Cut_InvariantMass_NoMassiveNeutrals` for the
decay PID (lines 1033-1050; the emplace at lines 1033-1034 is a no-op on
the all-showers stage, so the seeded FCAL results stay in front).
`cutInvariantMass` stands for the P4-handler predicate (external
collaborator). -/
def create_SourceCombos_DecayStore (stage : ComboingStage)
    (infoChargeContent : ChargeContent) (hasMassiveNeutrals : Bool)
    (vertexZBin : Int) (cutInvariantMass : SourceCombo → Bool)
    (unknownCombos fcalDecayResults : List SourceCombo)
    (fcalUnknownCount : Nat) : List SourceCombo :=
  if stage = ComboingStage.charged ∧ infoChargeContent ≠ ChargeContent.charged
    then unknownCombos
  else if hasMassiveNeutrals then unknownCombos
  else if stage = ComboingStage.mixed ∧ vertexZBin = vertexZIndex_Unknown
    then fcalDecayResults ++ unknownCombos.drop fcalUnknownCount
  else if stage = ComboingStage.mixed then
    unknownCombos.foldl
      (fun acc c => if cutInvariantMass c then acc ++ [c] else acc)
      fcalDecayResults
  else unknownCombos.foldl
    (fun acc c => if cutInvariantMass c then acc ++ [c] else acc) []

theorem foldl_pushIf_eq_filter (p : SourceCombo → Bool)
    (l : List SourceCombo) :
    ∀ acc, l.foldl (fun acc c => if p c then acc ++ [c] else acc) acc
      = acc ++ l.filter p := by
  induction l with
  | nil => intro acc; simp
  | cons c rest ih =>
    intro acc
    rw [List.foldl_cons, List.filter_cons]
    by_cases hc : p c = true
    · rw [if_pos hc, ih, hc]
      simp
    · rw [if_neg hc, ih]
      simp [hc]

/-- Counterexample to claim C6: on the all-showers stage with the Unknown
vertex-z-bin sentinel, `Create_SourceCombos` appends the z-dependent
Unknown-use combos to the stored decay-use result WITHOUT the
invariant-mass cut (DSourceComboer.cc:1004-1027): with a cut that rejects
everything, combo `(1, 2)` is stored anyway, while the claimed cut-passing
sub-list is empty. -/
theorem create_SourceCombos_unknownZBin_storesUncut :
    create_SourceCombos_DecayStore ComboingStage.mixed ChargeContent.neutral
        false vertexZIndex_Unknown (fun _ => false)
        [SourceCombo.mk [(1, 1)] [] true, SourceCombo.mk [(1, 2)] [] false]
        [] 1
      = [SourceCombo.mk [(1, 2)] [] false]
    ∧ List.filter (fun _ => false)
        [SourceCombo.mk [(1, 1)] [] true, SourceCombo.mk [(1, 2)] [] false]
      = [] :=
  ⟨rfl, rfl⟩

/-- Claim C6 (amended): after the Unknown-use combos are built, the result
stored for a decay-specific use sharing the same ComboInfo is: the
Unknown-use list itself, unchanged, on the charged stage for a non-charged
info (neutrals missing; cut deferred) and whenever the info transitively
contains a massive neutral (cut deferred to the beam stage); on the
all-showers stage with the Unknown vertex-z-bin sentinel, the seeded
FCAL-only decay results followed by the Unknown-use combos past the
FCAL-only prefix, UNCUT; on the all-showers stage with a known z bin, the
seeded FCAL-only decay results followed by the cut-passing sub-list; and in
the remaining cases (charged info on the charged stage, or the FCAL-only
stage) exactly the sub-list of Unknown-use combos passing the
invariant-mass cut -- the same combo objects in the same relative order (a
sublist of the Unknown list). -/
theorem create_SourceCombos_cutPlacement_amended (stage : ComboingStage)
    (infoChargeContent : ChargeContent) (hasMassiveNeutrals : Bool)
    (vertexZBin : Int) (cutInvariantMass : SourceCombo → Bool)
    (unknownCombos fcalDecayResults : List SourceCombo)
    (fcalUnknownCount : Nat) :
    (hasMassiveNeutrals = true →
      create_SourceCombos_DecayStore stage infoChargeContent
          hasMassiveNeutrals vertexZBin cutInvariantMass unknownCombos
          fcalDecayResults fcalUnknownCount
        = unknownCombos)
    ∧ ((stage = ComboingStage.charged
        ∧ infoChargeContent ≠ ChargeContent.charged) →
      create_SourceCombos_DecayStore stage infoChargeContent
          hasMassiveNeutrals vertexZBin cutInvariantMass unknownCombos
          fcalDecayResults fcalUnknownCount
        = unknownCombos)
    ∧ (hasMassiveNeutrals = false → stage = ComboingStage.mixed →
        vertexZBin = vertexZIndex_Unknown →
      create_SourceCombos_DecayStore stage infoChargeContent
          hasMassiveNeutrals vertexZBin cutInvariantMass unknownCombos
          fcalDecayResults fcalUnknownCount
        = fcalDecayResults ++ unknownCombos.drop fcalUnknownCount)
    ∧ (hasMassiveNeutrals = false → stage = ComboingStage.mixed →
        vertexZBin ≠ vertexZIndex_Unknown →
      create_SourceCombos_DecayStore stage infoChargeContent
          hasMassiveNeutrals vertexZBin cutInvariantMass unknownCombos
          fcalDecayResults fcalUnknownCount
        = fcalDecayResults ++ unknownCombos.filter cutInvariantMass)
    ∧ (hasMassiveNeutrals = false → stage ≠ ComboingStage.mixed →
      ¬(stage = ComboingStage.charged
        ∧ infoChargeContent ≠ ChargeContent.charged) →
      create_SourceCombos_DecayStore stage infoChargeContent
          hasMassiveNeutrals vertexZBin cutInvariantMass unknownCombos
          fcalDecayResults fcalUnknownCount
        = unknownCombos.filter cutInvariantMass
      ∧ (create_SourceCombos_DecayStore stage infoChargeContent
          hasMassiveNeutrals vertexZBin cutInvariantMass unknownCombos
          fcalDecayResults fcalUnknownCount).Sublist unknownCombos) := by
  refine ⟨?_, ?_, ?_, ?_, ?_⟩
  · intro hmn
    unfold create_SourceCombos_DecayStore
    by_cases h1 : stage = ComboingStage.charged
        ∧ infoChargeContent ≠ ChargeContent.charged
    · rw [if_pos h1]
    · rw [if_neg h1, if_pos hmn]
  · intro h1
    unfold create_SourceCombos_DecayStore
    rw [if_pos h1]
  · intro hmn hst hz
    unfold create_SourceCombos_DecayStore
    rw [if_neg (fun h => by rw [hst] at h; exact absurd h.1 (by decide)),
      hmn, if_neg (by simp), if_pos ⟨hst, hz⟩]
  · intro hmn hst hz
    unfold create_SourceCombos_DecayStore
    rw [if_neg (fun h => by rw [hst] at h; exact absurd h.1 (by decide)),
      hmn, if_neg (by simp), if_neg (fun h => hz h.2), if_pos hst,
      foldl_pushIf_eq_filter]
  · intro hmn hst hnc
    have heq : create_SourceCombos_DecayStore stage infoChargeContent
        hasMassiveNeutrals vertexZBin cutInvariantMass unknownCombos
        fcalDecayResults fcalUnknownCount
        = unknownCombos.filter cutInvariantMass := by
      unfold create_SourceCombos_DecayStore
      rw [if_neg hnc, hmn, if_neg (by simp), if_neg (fun h => hst h.1),
        if_neg hst, foldl_pushIf_eq_filter]
      simp
    exact ⟨heq, heq ▸ List.filter_sublist unknownCombos⟩

/-- Witness for `create_SourceCombos_cutPlacement_amended`: with a massive
neutral the stored list is the Unknown list itself; on the all-showers
stage with a known z bin the stored list is the seeded FCAL decay results
followed by the filtered sub-list. -/
theorem create_SourceCombos_cutPlacement_amended_witness :
    create_SourceCombos_DecayStore ComboingStage.mixed ChargeContent.neutral
        true 0 (fun _ => false) [SourceCombo.mk [(1, 1)] [] false] [] 0
      = [SourceCombo.mk [(1, 1)] [] false]
    ∧ create_SourceCombos_DecayStore ComboingStage.mixed
        ChargeContent.neutral false 0 (fun _ => false)
        [SourceCombo.mk [(1, 1)] [] false]
        [SourceCombo.mk [(1, 2)] [] true] 0
      = [SourceCombo.mk [(1, 2)] [] true]
        ++ List.filter (fun _ => false) [SourceCombo.mk [(1, 1)] [] false] :=
  ⟨(create_SourceCombos_cutPlacement_amended ComboingStage.mixed
      ChargeContent.neutral true 0 (fun _ => false)
      [SourceCombo.mk [(1, 1)] [] false] [] 0).1 rfl,
   (create_SourceCombos_cutPlacement_amended ComboingStage.mixed
      ChargeContent.neutral false 0 (fun _ => false)
      [SourceCombo.mk [(1, 1)] [] false]
      [SourceCombo.mk [(1, 2)] [] true] 0).2.2.2.1 rfl rfl (by decide)⟩

/-! ### The canonical lexicographic enumeration of increasing index lists
(proof infrastructure for the vertical N-particle comboing) -/

/-- All strictly increasing lists of length `n` with entries in
`[lo, lo + fuel)`, enumerated in lexicographic order by first element. -/
def incF : Nat → Nat → Nat → List (List Nat)
  | _, _, 0 => [[]]
  | 0, _, _ + 1 => []
  | f + 1, lo, n + 1 =>
    ((incF f (lo + 1) n).map (fun c => lo :: c)) ++ incF f (lo + 1) (n + 1)

/-- The pool position right after a combo's resume-after marker: one past
the last member, or the segment start for the empty combo. -/
def extBound (lo : Nat) (c : List Nat) : Nat :=
  match c.getLast? with
  | none => lo
  | some j => j + 1

/-- Abstract extension of a combo by each pool index from its resume bound
up to `M`. -/
def extC (M lo : Nat) (c : List Nat) : List (List Nat) :=
  (List.range' (extBound lo c) (M - extBound lo c)).map (fun k => c ++ [k])

theorem incF_zero (f lo : Nat) : incF f lo 0 = [[]] := by
  cases f <;> rfl

theorem length_incF : ∀ (f lo n : Nat), (incF f lo n).length = f.choose n := by
  intro f
  induction f with
  | zero =>
    intro lo n
    cases n with
    | zero => rfl
    | succ n => simp [incF, Nat.choose]
  | succ f ih =>
    intro lo n
    cases n with
    | zero => simp [incF_zero]
    | succ n =>
      show ((incF f (lo + 1) n).map (fun c => lo :: c)
        ++ incF f (lo + 1) (n + 1)).length = (f + 1).choose (n + 1)
      rw [List.length_append, List.length_map, ih (lo + 1) n,
        ih (lo + 1) (n + 1), Nat.choose_succ_succ]

theorem incF_one : ∀ (f lo : Nat),
    incF f lo 1 = (List.range' lo f).map (fun x => [x]) := by
  intro f
  induction f with
  | zero => intro lo; rfl
  | succ f ih =>
    intro lo
    show ((incF f (lo + 1) 0).map (fun c => lo :: c)) ++ incF f (lo + 1) 1
      = (List.range' lo (f + 1)).map (fun x => [x])
    rw [incF_zero, ih (lo + 1), List.range'_succ]
    rfl

theorem incF_mem : ∀ (f lo n : Nat), ∀ c ∈ incF f lo n,
    c.length = n ∧ List.Chain' (· < ·) c ∧ ∀ x ∈ c, lo ≤ x ∧ x < lo + f := by
  intro f
  induction f with
  | zero =>
    intro lo n c hc
    cases n with
    | zero =>
      simp only [incF_zero, List.mem_singleton] at hc
      subst hc
      exact ⟨rfl, List.chain'_nil, by simp⟩
    | succ n => simp [incF] at hc
  | succ f ih =>
    intro lo n c hc
    cases n with
    | zero =>
      simp only [incF_zero, List.mem_singleton] at hc
      subst hc
      exact ⟨rfl, List.chain'_nil, by simp⟩
    | succ n =>
      rw [show incF (f + 1) lo (n + 1)
        = ((incF f (lo + 1) n).map (fun c => lo :: c))
          ++ incF f (lo + 1) (n + 1) from rfl, List.mem_append] at hc
      rcases hc with hc | hc
      · obtain ⟨c', hc', rfl⟩ := List.mem_map.1 hc
        obtain ⟨hlen, hch, hbd⟩ := ih (lo + 1) n c' hc'
        refine ⟨by simp [hlen], ?_, ?_⟩
        · rw [List.chain'_cons']
          refine ⟨?_, hch⟩
          intro y hy
          have hy' : y ∈ c' := by
            cases c' with
            | nil => simp at hy
            | cons a t =>
              simp only [List.head?_cons, Option.mem_def,
                Option.some_inj] at hy
              subst hy
              exact List.mem_cons_self _ _
          exact Nat.lt_of_lt_of_le (Nat.lt_succ_self lo) (hbd y hy').1
        · intro x hx
          rcases List.mem_cons.1 hx with rfl | hx
          · omega
          · have := (hbd x hx)
            omega
      · obtain ⟨hlen, hch, hbd⟩ := ih (lo + 1) (n + 1) c hc
        refine ⟨hlen, hch, ?_⟩
        intro x hx
        have := hbd x hx
        omega

theorem incF_pairwise_lex : ∀ (f lo n : Nat),
    (incF f lo n).Pairwise (fun a b => List.Lex (· < ·) a b) := by
  intro f
  induction f with
  | zero =>
    intro lo n
    cases n with
    | zero => simp [incF_zero]
    | succ n => simp [incF]
  | succ f ih =>
    intro lo n
    cases n with
    | zero => simp [incF_zero]
    | succ n =>
      rw [show incF (f + 1) lo (n + 1)
        = ((incF f (lo + 1) n).map (fun c => lo :: c))
          ++ incF f (lo + 1) (n + 1) from rfl]
      rw [List.pairwise_append]
      refine ⟨?_, ih (lo + 1) (n + 1), ?_⟩
      · rw [List.pairwise_map]
        exact (ih (lo + 1) n).imp (fun h => List.Lex.cons h)
      · intro a ha b hb
        obtain ⟨a', _, rfl⟩ := List.mem_map.1 ha
        obtain ⟨hblen, _, hbbd⟩ := incF_mem f (lo + 1) (n + 1) b hb
        cases b with
        | nil => simp at hblen
        | cons bh bt =>
          have : lo < bh := by
            have := (hbbd bh (List.mem_cons_self _ _)).1
            omega
          exact List.Lex.rel this

theorem extBound_cons (lo : Nat) (c : List Nat) :
    extBound lo (lo :: c) = extBound (lo + 1) c := by
  cases c with
  | nil => rfl
  | cons a t =>
    unfold extBound
    rw [List.getLast?_cons]
    cases h : (a :: t).getLast? with
    | none => exact absurd (List.getLast?_eq_none_iff.1 h) (by simp)
    | some j => simp [h]

theorem extBound_irrel (lo lo' a : Nat) (t : List Nat) :
    extBound lo (a :: t) = extBound lo' (a :: t) := by
  unfold extBound
  rw [List.getLast?_cons]

theorem extC_cons (M lo : Nat) (c : List Nat) :
    extC M lo (lo :: c) = (extC M (lo + 1) c).map (fun l => lo :: l) := by
  unfold extC
  rw [extBound_cons, List.map_map]
  rfl

theorem flatMap_congr {α β : Type} {l : List α} {f g : α → List β}
    (h : ∀ a ∈ l, f a = g a) : l.flatMap f = l.flatMap g := by
  induction l with
  | nil => rfl
  | cons a t ih =>
    rw [List.flatMap_cons, List.flatMap_cons, h a (List.mem_cons_self a t),
      ih (fun x hx => h x (List.mem_cons_of_mem a hx))]

theorem incF_flatMap_extC : ∀ (f lo n : Nat),
    (incF f lo n).flatMap (extC (lo + f) lo) = incF f lo (n + 1) := by
  intro f
  induction f with
  | zero =>
    intro lo n
    cases n with
    | zero =>
      rw [incF_zero]
      show extC (lo + 0) lo [] ++ [] = incF 0 lo 1
      simp [extC, extBound, incF]
    | succ n => simp [incF]
  | succ f ih =>
    intro lo n
    cases n with
    | zero =>
      rw [incF_zero, incF_one]
      show extC (lo + (f + 1)) lo [] ++ [] = _
      have harith : lo + (f + 1) - lo = f + 1 := by omega
      simp only [extC, extBound, harith, List.append_nil]
      simp
    | succ n =>
      have hsplit : incF (f + 1) lo (n + 1)
          = ((incF f (lo + 1) n).map (fun c => lo :: c))
            ++ incF f (lo + 1) (n + 1) := rfl
      rw [hsplit, List.flatMap_append, List.flatMap_map]
      have harith : lo + (f + 1) = (lo + 1) + f := by omega
      have hfirst : (incF f (lo + 1) n).flatMap
          (fun c => extC (lo + (f + 1)) lo (lo :: c))
          = (incF f (lo + 1) (n + 1)).map (fun l => lo :: l) := by
        have h1 : (incF f (lo + 1) n).flatMap
            (fun c => extC (lo + (f + 1)) lo (lo :: c))
            = (incF f (lo + 1) n).flatMap
              (fun c => (extC ((lo + 1) + f) (lo + 1) c).map
                (fun l => lo :: l)) := by
          apply flatMap_congr
          intro c _
          rw [extC_cons, harith]
        rw [h1, ← List.map_flatMap, ih (lo + 1) n]
      have hsecond : (incF f (lo + 1) (n + 1)).flatMap
          (extC (lo + (f + 1)) lo)
          = incF f (lo + 1) (n + 2) := by
        have h2 : (incF f (lo + 1) (n + 1)).flatMap
            (extC (lo + (f + 1)) lo)
            = (incF f (lo + 1) (n + 1)).flatMap
              (extC ((lo + 1) + f) (lo + 1)) := by
          apply flatMap_congr
          intro c hc
          obtain ⟨hlen, _, _⟩ := incF_mem f (lo + 1) (n + 1) c hc
          cases c with
          | nil => simp at hlen
          | cons a t =>
            unfold extC
            rw [extBound_irrel lo (lo + 1) a t, harith]
        rw [h2, ih (lo + 1) (n + 1)]
      rw [hfirst, hsecond]
      rfl

theorem dropWhile_ne_range' : ∀ (f lo x : Nat), lo ≤ x → x < lo + f →
    (List.range' lo f).dropWhile (fun y => decide (y ≠ x))
      = List.range' x (lo + f - x) := by
  intro f
  induction f with
  | zero => intro lo x h1 h2; omega
  | succ f ih =>
    intro lo x h1 h2
    rw [List.range'_succ, List.dropWhile_cons]
    by_cases hx : lo = x
    · subst hx
      rw [if_neg (by simp)]
      have : lo + (f + 1) - lo = f + 1 := by omega
      rw [this, List.range'_succ]
    · rw [if_pos (by simp [hx])]
      have h1' : lo + 1 ≤ x := by omega
      have h2' : x < (lo + 1) + f := by omega
      rw [ih (lo + 1) x h1' h2']
      congr 1
      omega

theorem resumeSearchAfter_range' (f lo x : Nat) (h1 : lo ≤ x)
    (h2 : x < lo + f) :
    resumeSearchAfter (List.range' lo f) (some x)
      = List.range' (x + 1) (lo + f - (x + 1)) := by
  show (List.dropWhile (fun y => decide (y ≠ x)) (List.range' lo f)).drop 1
    = List.range' (x + 1) (lo + f - (x + 1))
  rw [dropWhile_ne_range' f lo x h1 h2]
  obtain ⟨k, hk⟩ : ∃ k, lo + f - x = k + 1 := ⟨lo + f - x - 1, by omega⟩
  rw [hk, List.range'_succ, List.drop_one, List.tail_cons]
  congr 1
  omega

theorem pairsFrom_range' : ∀ (f lo : Nat),
    (pairsFrom (List.range' lo f)).map (fun pr => [pr.1, pr.2])
      = incF f lo 2 := by
  intro f
  induction f with
  | zero => intro lo; rfl
  | succ f ih =>
    intro lo
    rw [List.range'_succ]
    show ((List.range' (lo + 1) f).map (fun b => (lo, b))
        ++ pairsFrom (List.range' (lo + 1) f)).map (fun pr => [pr.1, pr.2])
      = incF (f + 1) lo 2
    rw [List.map_append, List.map_map, ih (lo + 1)]
    have h2 : incF (f + 1) lo 2
        = ((incF f (lo + 1) 1).map (fun c => lo :: c))
          ++ incF f (lo + 1) 2 := rfl
    rw [h2, incF_one, List.map_map]
    rfl

theorem pairLoopBody_noCuts (pr : Nat × Nat) :
    pairLoopBody ComboingStage.charged false (fun _ => []) (fun _ => false)
      pr = some ([pr.1, pr.2], []) := by
  simp [pairLoopBody]

theorem vertNoCuts_two (pool : List Nat) (hne : pool ≠ []) :
    vertNoCutsCombos pool 2
      = some ((pairsFrom pool).map (fun pr => [pr.1, pr.2])) := by
  match pool, hne with
  | a :: rest, _ =>
    show ((combo_Vertically_NParticles_Pairs ComboingStage.charged false
        (fun _ => []) (fun _ => false) (a :: rest)).map
          (fun l => l.map (fun c => c.1)))
      = some ((pairsFrom (a :: rest)).map (fun pr => [pr.1, pr.2]))
    unfold combo_Vertically_NParticles_Pairs
    rw [Option.map_some']
    congr 1
    have hfun : pairLoopBody ComboingStage.charged false (fun _ => [])
        (fun _ => false)
        = (some ∘ fun pr : Nat × Nat => (([pr.1, pr.2] : List Nat),
          ([] : List Int))) :=
      funext (fun pr => pairLoopBody_noCuts pr)
    rw [hfun, List.filterMap_eq_map, List.map_map]
    rfl

theorem extendNoCuts_proj (pool : List Nat)
    (L : List (List Nat × List Int)) :
    (combo_Vertically_NParticles_Extend ComboingStage.charged false
      (fun _ => []) (fun _ => false) pool L).map (fun c => c.1)
      = (L.map (fun c => c.1)).flatMap
        (fun m => (resumeSearchAfter pool m.getLast?).map
          (fun p => m ++ [p])) := by
  unfold combo_Vertically_NParticles_Extend
  rw [List.map_flatMap, List.flatMap_map]
  apply flatMap_congr
  intro c _
  have hbody : ∀ p : Nat, (if ComboingStage.charged = ComboingStage.mixed
      ∧ (decide (ComboingStage.charged = ComboingStage.mixedZIndependent)
          || (c.1.all (fun _ => false) && false)) = true then
        (none : Option (List Nat × List Int))
      else some (c.1 ++ [p], if false then get_CommonRFBunches c.2 [] else []))
      = some (c.1 ++ [p], []) := by
    intro p
    rw [if_neg (by simp)]
    simp
  have hfun : (fun p : Nat => (if ComboingStage.charged = ComboingStage.mixed
      ∧ (decide (ComboingStage.charged = ComboingStage.mixedZIndependent)
          || (c.1.all (fun _ => false) && false)) = true then
        (none : Option (List Nat × List Int))
      else some (c.1 ++ [p], if false then get_CommonRFBunches c.2 [] else [])))
      = (some ∘ fun p : Nat => ((c.1 ++ [p] : List Nat), ([] : List Int))) :=
    funext hbody
  rw [hfun, List.filterMap_eq_map, List.map_map]
  rfl

theorem extend_mem_eq_extC {M : Nat} {c : List Nat}
    (hne : c ≠ []) (hbd : ∀ x ∈ c, x < M) :
    (resumeSearchAfter (List.range M) c.getLast?).map (fun p => c ++ [p])
      = extC M 0 c := by
  cases hq : c.getLast? with
  | none => exact absurd (List.getLast?_eq_none_iff.1 hq) hne
  | some j =>
    have hj : j ∈ c := List.mem_of_mem_getLast? hq
    have hjM : j < M := hbd j hj
    have hbnd : extBound 0 c = j + 1 := by
      unfold extBound
      rw [hq]
    have harith : 0 + M - (j + 1) = M - (j + 1) := by omega
    rw [List.range_eq_range',
      resumeSearchAfter_range' M 0 j (Nat.zero_le j) (by omega), harith]
    unfold extC
    rw [hbnd]

theorem vertNoCuts_eq_incF (M : Nat) (hM : 1 ≤ M) :
    ∀ n, 2 ≤ n → vertNoCutsCombos (List.range M) n = some (incF M 0 n) := by
  have hne : List.range M ≠ [] := by
    intro h
    rw [List.range_eq_nil] at h
    omega
  intro n h2
  induction n, h2 using Nat.le_induction with
  | base =>
    rw [vertNoCuts_two (List.range M) hne, List.range_eq_range',
      pairsFrom_range']
  | succ n hn ih =>
    obtain ⟨k, rfl⟩ : ∃ k, n = k + 2 := ⟨n - 2, by omega⟩
    have hstep : vertNoCutsCombos (List.range M) (k + 2 + 1)
        = ((combo_Vertically_NParticles_IntendedChain ComboingStage.charged false
            (fun _ => []) (fun _ => false) (List.range M) (k + 2)).map
          (combo_Vertically_NParticles_Extend ComboingStage.charged false
            (fun _ => []) (fun _ => false) (List.range M))).map
          (fun l => l.map (fun c => c.1)) := rfl
    obtain ⟨L, hL, hproj⟩ := Option.map_eq_some'.1 ih
    rw [hstep, hL, Option.map_some', Option.map_some', Option.some_inj,
      extendNoCuts_proj, hproj]
    have hcong : (incF M 0 (k + 2)).flatMap
        (fun m => (resumeSearchAfter (List.range M) m.getLast?).map
          (fun p => m ++ [p]))
        = (incF M 0 (k + 2)).flatMap (extC M 0) := by
      apply flatMap_congr
      intro c hc
      obtain ⟨hlen, _, hbd⟩ := incF_mem M 0 (k + 2) c hc
      refine extend_mem_eq_extC ?_ ?_
      · intro h
        rw [h] at hlen
        simp at hlen
      · intro x hx
        have := hbd x hx
        omega
    rw [hcong]
    have := incF_flatMap_extC M 0 (k + 2)
    rw [Nat.zero_add] at this
    exact this

/-- The member lists produced by the SHIPPED fresh-memo vertical chain
with no cuts applying (a non-photon PID: no RF voting, no z-dependence
skips). -/
def vertNoCutsFreshCombos (pool : List Nat) (n : Nat) :
    Option (List (List Nat)) :=
  (combo_Vertically_AllParticles_FreshMemoChain ComboingStage.charged false
    (fun _ => []) (fun _ => false) pool n).map (fun l => l.map (fun c => c.1))

/-- Claim C4 (refuting for N > 2): the shipped code satisfies the claim
only for `N = 2`.  The `N = 2` double loop is intact, so a fresh-memo
request for 2 of pool `{A, B, C, D}` (indices 0-3) does produce the 6
claimed pairs in order; but for every `N ≥ 3` the inverted memo guard at
DSourceComboer.cc:1327 skips building the `N - 1` grouping and line 1391
then dereferences the absent (default-constructed null) memo entry --
undefined behaviour, no combo list at all (`none`), never `C(M, N)`
combos.  The chain WITH the guard its comment prescribes does satisfy the
claim in full: exactly `C(M, N)` combos, each a strictly increasing
selection of pool indices of length `N`, the list strictly
lexicographically ordered by pool index (creation order) with no two
entries permutations of each other, and the `{A, B, C, D}`, `N = 2`
instance is exactly `[AB, AC, AD, BC, BD, CD]`. -/
theorem verticalComboing_noCuts_chooseOnlyWithIntendedGuard :
    vertNoCutsFreshCombos (List.range 4) 2
        = some [[0, 1], [0, 2], [0, 3], [1, 2], [1, 3], [2, 3]]
    ∧ (∀ (stage : ComboingStage) (isGamma : Bool) (validRF : Nat → List Int)
        (isZInd : Nat → Bool) (particles : List Nat) (n : Nat), 3 ≤ n →
        combo_Vertically_AllParticles_FreshMemoChain stage isGamma validRF
          isZInd particles n = none)
    ∧ (∀ M n : Nat, 2 ≤ n → 1 ≤ M →
        ∃ l, vertNoCutsCombos (List.range M) n = some l
          ∧ l.length = M.choose n
          ∧ l.Pairwise (fun a b => List.Lex (· < ·) a b)
          ∧ (∀ c ∈ l, List.Chain' (· < ·) c ∧ c.length = n ∧ ∀ x ∈ c, x < M)
          ∧ l.Pairwise (fun a b => ¬ a.Perm b))
    ∧ vertNoCutsCombos (List.range 4) 2
        = some [[0, 1], [0, 2], [0, 3], [1, 2], [1, 3], [2, 3]] := by
  refine ⟨by decide, ?_, ?_, by decide⟩
  · intro stage isGamma validRF isZInd particles n hn
    obtain ⟨m, rfl⟩ : ∃ m, n = m + 3 := ⟨n - 3, by omega⟩
    rfl
  · intro M n h2 hM
    refine ⟨incF M 0 n, vertNoCuts_eq_incF M hM n h2, length_incF M 0 n,
      incF_pairwise_lex M 0 n, ?_, ?_⟩
    · intro c hc
      obtain ⟨hlen, hch, hbd⟩ := incF_mem M 0 n c hc
      exact ⟨hch, hlen, fun x hx => by have := hbd x hx; omega⟩
    · haveI : IsAntisymm Nat (· < ·) :=
        ⟨fun a b h1 h2 => absurd (Nat.lt_trans h1 h2) (Nat.lt_irrefl a)⟩
      refine (incF_pairwise_lex M 0 n).imp_of_mem ?_
      intro a b ha hb hlex hperm
      obtain ⟨_, hcha, _⟩ := incF_mem M 0 n a ha
      obtain ⟨_, hchb, _⟩ := incF_mem M 0 n b hb
      have hsa : List.Sorted (· < ·) a := List.chain'_iff_pairwise.1 hcha
      have hsb : List.Sorted (· < ·) b := List.chain'_iff_pairwise.1 hchb
      have : a = b := List.eq_of_perm_of_sorted hperm hsa hsb
      subst this
      exact irrefl a hlex

/-- Witness for `verticalComboing_noCuts_chooseOnlyWithIntendedGuard`: at
pool `{0, 1, 2, 3}` and `N = 3` the shipped fresh-memo chain yields
nothing, while the intended-guard chain yields `C(4, 3) = 4` combos. -/
theorem verticalComboing_noCuts_chooseOnlyWithIntendedGuard_witness :
    combo_Vertically_AllParticles_FreshMemoChain ComboingStage.charged false
        (fun _ => []) (fun _ => false) (List.range 4) 3 = none
    ∧ ∃ l, vertNoCutsCombos (List.range 4) 3 = some l
        ∧ l.length = Nat.choose 4 3 :=
  ⟨verticalComboing_noCuts_chooseOnlyWithIntendedGuard.2.1
      ComboingStage.charged false (fun _ => []) (fun _ => false)
      (List.range 4) 3 (by decide),
    (verticalComboing_noCuts_chooseOnlyWithIntendedGuard.2.2.1 4 3
      (by decide) (by decide)).elim (fun l hl => ⟨l, hl.1, hl.2.1⟩)⟩
